import Mathlib

/-!
# tiny-smart: reading and rendering the S.M.A.R.T. attribute log

A shallow embedding of `tiny-smart.c`.

* Bytes and the wider unsigned fields are natural numbers; the response
  buffer `buf` is a list of bytes and `BUF_SZ` is its declared size.
* A load from the buffer is bounds checked: a load at an offset that the
  list does not hold is a fault carrying that offset (in C: a read past the
  end of the array).
* A list longer than `BUF_SZ` stands for the array followed by the bytes
  that lie after it in memory: the loop bound is `BUF_SZ` whatever the list
  holds, and a load at an offset from `BUF_SZ` on, still a read past the end
  of the array, is then served from those bytes.
* `printf` is modelled by the conversions the program uses (`%x`, `%u`,
  `%s`, `%c` with their widths, precision and the `-` flag) producing lists
  of characters.
* `main` runs against an abstract operating system that decides the outcome
  of `open` and of the `SG_IO` request, and records what it does as a trace
  of events.
-/

namespace TinySmart

set_option maxRecDepth 100000

/-! ## Constants of the source -/

def SENSE_BUF_SZ : Nat := 0x20
def BUF_SZ : Nat := 0x200

def CBD_OPERATION_CODE : Nat := 0xa1
def CBD_PROTOCOL_DMA : Nat := 0x06
def CBD_T_LENGTH : Nat := 0x02
def CBD_BYT_BLOK : Nat := 0x01
def CBD_T_DIR : Nat := 0x01
def CBD_CK_COND : Nat := 0x00
def CBD_OFF_LINE : Nat := 0x00
def CBD_FEATURES : Nat := 0xd0
def CBD_SECTOR_COUNT : Nat := 0x01
def CBD_LBA_LOW : Nat := 0x00
def CBD_LBA_MID : Nat := 0x4f
def CBD_LBA_HIGH : Nat := 0xc2
def CBD_DEVICE : Nat := 0x00
def CBD_COMMAND : Nat := 0xb0
def CBD_RESVERVED : Nat := 0x00
def CBD_CONTROL : Nat := 0x00

def ATTR_FLAG_WARRANTY : Nat := 0x01
def ATTR_FLAG_OFFLINE : Nat := 0x02
def ATTR_FLAG_PERFORMANCE : Nat := 0x04
def ATTR_FLAG_ERROR_RATE : Nat := 0x08
def ATTR_FLAG_EVENT_COUNT : Nat := 0x10
def ATTR_FLAG_SELF_PRESERV : Nat := 0x20

def EXIT_SUCCESS : Nat := 0
def EXIT_FAILURE : Nat := 1

/-! ## The packed record `raw_value_t` -/

/-- SMART log raw data value: the fields of the packed struct, in order. -/
structure raw_value_t where
  attr_id : Nat
  attr_flags : Nat
  current_value : Nat
  worst_value : Nat
  data : Nat
  attr_data : Nat
  threshold : Nat
  deriving DecidableEq, Repr

/-- Value of `sizeof(raw_value_t)`: the struct is packed, so it is the sum of
the sizes of `uint8_t, uint16_t, uint8_t, uint8_t, uint32_t, uint16_t,
uint8_t`. -/
def RAW_VALUE_SZ : Nat := 1 + 2 + 1 + 1 + 4 + 2 + 1

/-- Byte offsets of the members inside the packed struct. -/
def OFF_ATTR_ID : Nat := 0
def OFF_ATTR_FLAGS : Nat := 1
def OFF_CURRENT_VALUE : Nat := 3
def OFF_WORST_VALUE : Nat := 4
def OFF_DATA : Nat := 5
def OFF_ATTR_DATA : Nat := 9
def OFF_THRESHOLD : Nat := 11

/-! ## Bounds-checked loads from the buffer -/

/-- Load of one byte at offset `off`; `Except.error off` is a read outside
the memory that `buf` holds. -/
def load8 (buf : List Nat) (off : Nat) : Except Nat Nat :=
  match buf[off]? with
  | some b => .ok b
  | none => .error off

/-- Load of a little-endian `uint16_t` at offset `off`. -/
def load16 (buf : List Nat) (off : Nat) : Except Nat Nat :=
  match load8 buf off with
  | .error e => .error e
  | .ok b0 =>
    match load8 buf (off + 1) with
    | .error e => .error e
    | .ok b1 => .ok (b0 + 256 * b1)

/-- Load of a little-endian `uint32_t` at offset `off`. -/
def load32 (buf : List Nat) (off : Nat) : Except Nat Nat :=
  match load16 buf off with
  | .error e => .error e
  | .ok lo =>
    match load16 buf (off + 2) with
    | .error e => .error e
    | .ok hi => .ok (lo + 65536 * hi)

/-! ## The name table -/

/-- Number of entries of the array `id_str`. -/
def ID_STR_SZ : Nat := 256

/-- The designated initialisers of `id_str`; every other entry of the array
is a null pointer (`none`). -/
def id_str : Nat → Option String
  | 0x01 => some "Read Error Rate"
  | 0x02 => some "Throughput Performance"
  | 0x03 => some "Spin-Up Time"
  | 0x04 => some "Start/Stop Count"
  | 0x05 => some "Reallocated Sectors Count"
  | 0x06 => some "Read Channel Margin"
  | 0x07 => some "Seek Error Rate"
  | 0x08 => some "Seek Time Performance"
  | 0x09 => some "Power-On Hours"
  | 0x0a => some "Spin Retry Count"
  | 0x0b => some "Recalibration Retries"
  | 0x0c => some "Power Cycle Count"
  | 0x0d => some "Soft Read Error Rate"
  | 0x16 => some "Current Helium Level"
  | 0xaa => some "Available Reserved Space"
  | 0xab => some "SSD Program Fail Count"
  | 0xac => some "SSD Erase Fail Count"
  | 0xad => some "SSD Wear Leveling Count"
  | 0xae => some "Unexpected Power Loss Count"
  | 0xaf => some "Power Loss Protection Failure"
  | 0xb0 => some "Erase Fail Count"
  | 0xb1 => some "Wear Range Delta"
  | 0xb2 => some "Used Reserved Block Count"
  | 0xb3 => some "Used Reserved Block Count Total"
  | 0xb4 => some "Unused Reserved Block Count Total"
  | 0xb5 => some "Program Fail Count Total"
  | 0xb6 => some "Erase Fail Count"
  | 0xb7 => some "SATA Downshift Error Count"
  | 0xb8 => some "End-to-End error"
  | 0xb9 => some "Head Stability"
  | 0xba => some "Induced Op-Vibration Detection"
  | 0xbb => some "Reported Uncorrectable Errors"
  | 0xbc => some "Command Timeout"
  | 0xbd => some "High Fly Writes"
  | 0xbe => some "Temperature Difference"
  | 0xbf => some "G-sense Error Rate"
  | 0xc0 => some "Power-off Retract Count"
  | 0xc1 => some "Load Cycle Count"
  | 0xc2 => some "Temperature"
  | 0xc3 => some "Hardware ECC Recovered"
  | 0xc4 => some "Reallocation Event Count"
  | 0xc5 => some "Current Pending Sector Count"
  | 0xc6 => some "(Offline) Uncorrectable Sector Count"
  | 0xc7 => some "UltraDMA CRC Error Count"
  | 0xc8 => some "Multi-Zone Error Rate"
  | 0xc9 => some "Soft Read Error Rate"
  | 0xca => some "Data Address Mark errors"
  | 0xcb => some "Run Out Cancel"
  | 0xcc => some "Soft ECC Correction"
  | 0xcd => some "Thermal Asperity Rate"
  | 0xce => some "Flying Height"
  | 0xcf => some "Spin High Current"
  | 0xd0 => some "Spin Buzz"
  | 0xd1 => some "Offline Seek Performance"
  | 0xd2 => some "Vibration During Write"
  | 0xd3 => some "Vibration During Write"
  | 0xd4 => some "Shock During Write"
  | 0xdc => some "Disk Shift"
  | 0xdd => some "G-Sense Error Rate"
  | 0xde => some "Loaded Hours"
  | 0xdf => some "Load/Unload Retry Count"
  | 0xe0 => some "Load Friction"
  | 0xe1 => some "Load/Unload Cycle Count"
  | 0xe2 => some "Load 'In'-time"
  | 0xe3 => some "Torque Amplification Count"
  | 0xe4 => some "Power-Off Retract Cycle"
  | 0xe6 => some "GMR Head Amplitude"
  | 0xe7 => some "Life Left / Temperature"
  | 0xe8 => some "Endurance Remaining"
  | 0xe9 => some "Media Wearout Indicator"
  | 0xea => some "Average erase count"
  | 0xeb => some "Good Block Count"
  | 0xf0 => some "Head Flying Hours"
  | 0xf1 => some "Total LBAs Written"
  | 0xf2 => some "Total LBAs Read"
  | 0xf3 => some "Total LBAs Written Expanded"
  | 0xf4 => some "Total LBAs Read Expanded"
  | 0xf9 => some "NAND Writes (1GiB)"
  | 0xfa => some "Read Error Retry Rate"
  | 0xfb => some "Minimum Spares Remaining"
  | 0xfc => some "Newly Added Bad Flash Block"
  | 0xfe => some "Free Fall Protection"
  | _ => none

/-! ## The command descriptor block -/

/-- The initialiser of byte 2 of `cdb`, as a function of the five macro
values it combines. -/
def cdb_flags (t_length byt_blok t_dir ck_cond off_line : Nat) : Nat :=
  (t_length <<< 0) |||
  (byt_blok <<< 1) |||
  (t_dir <<< 3) |||
  (ck_cond <<< 5) |||
  (off_line <<< 6)

/-- The array `cdb`; each initialiser is converted to `uint8_t`. -/
def cdb : List Nat :=
  [ CBD_OPERATION_CODE % 256,
    (CBD_PROTOCOL_DMA <<< 1) % 256,
    (cdb_flags CBD_T_LENGTH CBD_BYT_BLOK CBD_T_DIR CBD_CK_COND CBD_OFF_LINE) % 256,
    CBD_FEATURES % 256,
    CBD_SECTOR_COUNT % 256,
    CBD_LBA_LOW % 256,
    CBD_LBA_MID % 256,
    CBD_LBA_HIGH % 256,
    CBD_DEVICE % 256,
    CBD_COMMAND % 256,
    CBD_RESVERVED % 256,
    CBD_CONTROL % 256 ]

/-! ## The `printf` conversions used by `main` -/

/-- Right-justify `s` in a field of `w` columns (no `-` flag). -/
def pad_left (w : Nat) (s : List Char) : List Char :=
  List.replicate (w - s.length) ' ' ++ s

/-- Left-justify `s` in a field of `w` columns (`-` flag). -/
def pad_right (w : Nat) (s : List Char) : List Char :=
  s ++ List.replicate (w - s.length) ' '

/-- Conversion `%<w>x`: lower-case hexadecimal, at least `w` columns. -/
def fmt_x (w n : Nat) : List Char := pad_left w (Nat.toDigits 16 n)

/-- Conversion `%<w>u` (`PRIu32`): unsigned decimal, at least `w` columns. -/
def fmt_u (w n : Nat) : List Char := pad_left w (Nat.toDigits 10 n)

/-- Conversion `%<w>s`: the whole string, right-justified. -/
def fmt_s (w : Nat) (s : String) : List Char := pad_left w s.toList

/-- Conversion `%<w>.<p>s`: at most `p` characters, right-justified. -/
def fmt_s_prec (w p : Nat) (s : String) : List Char := pad_left w (s.toList.take p)

/-- Conversion `%-<w>.<p>s`: at most `p` characters, left-justified. -/
def fmt_s_left_prec (w p : Nat) (s : String) : List Char :=
  pad_right w (s.toList.take p)

/-- The argument `(flags & mask) ? c : ' '` of a `%c` conversion. -/
def flag_char (flags mask : Nat) (c : Char) : Char :=
  if flags &&& mask ≠ 0 then c else ' '

/-- The six `%c` arguments of a row, in the order of the format. -/
def flag_chars (flags : Nat) : List Char :=
  [ flag_char flags ATTR_FLAG_WARRANTY 'w',
    flag_char flags ATTR_FLAG_OFFLINE 'o',
    flag_char flags ATTR_FLAG_PERFORMANCE 'p',
    flag_char flags ATTR_FLAG_ERROR_RATE 'e',
    flag_char flags ATTR_FLAG_EVENT_COUNT 'c',
    flag_char flags ATTR_FLAG_SELF_PRESERV 's' ]

/-- The argument `id_str[id] ? id_str[id] : "?"`. -/
def attr_name (id : Nat) : String :=
  match id_str id with
  | some s => s
  | none => "?"

/-- The header line written before the loop. -/
def header_row : List Char :=
  fmt_s 2 "ID" ++ [' '] ++ fmt_s_left_prec 30 30 "Attribute" ++ [' '] ++
  fmt_s 4 "Flgs" ++ [' '] ++ fmt_s_prec 6 6 "Flags" ++ [' '] ++
  fmt_s 3 "Cur" ++ [' '] ++ fmt_s 3 "Wor" ++ [' '] ++
  fmt_s 11 "Data" ++ [' '] ++ fmt_s 3 "Thr" ++ ['\n']

/-- The line written by the `printf` of the loop body, from the values of its
arguments. The member `attr_data` is not an argument. -/
def print_row (rv : raw_value_t) : List Char :=
  fmt_x 2 rv.attr_id ++ [' '] ++
  fmt_s_left_prec 30 30 (attr_name rv.attr_id) ++ [' '] ++
  fmt_x 4 rv.attr_flags ++ [' '] ++
  flag_chars rv.attr_flags ++ [' ', ' '] ++
  fmt_x 2 rv.current_value ++ [' ', ' '] ++
  fmt_x 2 rv.worst_value ++ [' '] ++
  fmt_u 11 rv.data ++ [' ', ' '] ++
  fmt_x 2 rv.threshold ++ ['\n']

/-- The four `printf` calls after the loop. -/
def legend : List (List Char) :=
  [ "\nKey:\n".toList,
    "  Cur: Current, Wor: Worst, Thr: Threshold\n".toList,
    "Flags:\n  w = warranty, o = offline, p = performance, e = error rate\n".toList,
    "  c = event code, s = self preservation\n".toList ]

/-! ## The record walk -/

/-- The members of `*rv` that the loop body reads, loaded from the buffer at
byte offset `rv`, in the order of the `printf` arguments. `attr_data` is never
read by the program; it is kept as 0 in the view. -/
def rv_load (buf : List Nat) (rv : Nat) : Except Nat raw_value_t :=
  match load8 buf (rv + OFF_ATTR_ID) with
  | .error e => .error e
  | .ok id =>
  match load16 buf (rv + OFF_ATTR_FLAGS) with
  | .error e => .error e
  | .ok flags =>
  match load8 buf (rv + OFF_CURRENT_VALUE) with
  | .error e => .error e
  | .ok cur =>
  match load8 buf (rv + OFF_WORST_VALUE) with
  | .error e => .error e
  | .ok wor =>
  match load32 buf (rv + OFF_DATA) with
  | .error e => .error e
  | .ok data =>
  match load8 buf (rv + OFF_THRESHOLD) with
  | .error e => .error e
  | .ok thr => .ok ⟨id, flags, cur, wor, data, 0, thr⟩

/-- Why the loop stopped. -/
inductive Stop where
  | sentinel
  | buf_end
  | fault (off : Nat)
  | no_fuel
  deriving DecidableEq, Repr

/-- Result of the loop: the rows written, in order, and why it stopped. -/
structure Walk where
  rows : List (List Char)
  stop : Stop
  deriving DecidableEq, Repr

/-- The loop `while ((rv < rv_end) && rv->attr_id) { printf(...); rv++; }`
with `rv` and `rv_end` as byte offsets from `buf`; `rv_end` is `BUF_SZ`.
The first argument bounds the number of iterations. -/
def walk_from (buf : List Nat) : Nat → Nat → Walk
  | 0, _ => ⟨[], .no_fuel⟩
  | fuel + 1, rv =>
    if rv < BUF_SZ then
      match load8 buf (rv + OFF_ATTR_ID) with
      | .error e => ⟨[], .fault e⟩
      | .ok id =>
        if id ≠ 0 then
          match rv_load buf rv with
          | .error e => ⟨[], .fault e⟩
          | .ok r =>
            let w := walk_from buf fuel (rv + RAW_VALUE_SZ)
            ⟨print_row r :: w.rows, w.stop⟩
        else ⟨[], .sentinel⟩
    else ⟨[], .buf_end⟩

/-- The loop of `main`, started at `rv = buf + 2`. Every iteration advances
`rv`, so `BUF_SZ` iterations are more than the loop can make. -/
def walk (buf : List Nat) : Walk := walk_from buf BUF_SZ 2

/-! ## The operating system seen by `main` -/

def O_RDONLY : Nat := 0
def SG_IO_REQUEST : Nat := 0x2285
def SG_DXFER_FROM_DEV : Int := -3

/-- The arrays a pointer member of the request can point to. -/
inductive Ptr where
  | null
  | to_buf
  | to_sbuf
  | to_cdb
  deriving DecidableEq, Repr

/-- The request descriptor `sg_io_hdr_t` of `<scsi/sg.h>`, member by member. -/
structure sg_io_hdr_t where
  interface_id : Int
  dxfer_direction : Int
  cmd_len : Nat
  mx_sb_len : Nat
  iovec_count : Nat
  dxfer_len : Nat
  dxferp : Ptr
  cmdp : Ptr
  sbp : Ptr
  timeout : Nat
  flags : Nat
  pack_id : Int
  usr_ptr : Ptr
  status : Nat
  masked_status : Nat
  msg_status : Nat
  sb_len_wr : Nat
  host_status : Nat
  driver_status : Nat
  resid : Int
  duration : Nat
  info : Nat
  deriving DecidableEq, Repr

/-- The descriptor after `memset(&sg_io_hdr, 0, sizeof(sg_io_hdr))`. -/
def sg_io_hdr_zero : sg_io_hdr_t :=
  { interface_id := 0, dxfer_direction := 0, cmd_len := 0, mx_sb_len := 0,
    iovec_count := 0, dxfer_len := 0, dxferp := .null, cmdp := .null,
    sbp := .null, timeout := 0, flags := 0, pack_id := 0, usr_ptr := .null,
    status := 0, masked_status := 0, msg_status := 0, sb_len_wr := 0,
    host_status := 0, driver_status := 0, resid := 0, duration := 0, info := 0 }

/-- The descriptor after the nine assignments of `main`. -/
def sg_io_hdr_request : sg_io_hdr_t :=
  { sg_io_hdr_zero with
    interface_id := ('S').toNat
    cmd_len := cdb.length
    mx_sb_len := SENSE_BUF_SZ
    dxfer_direction := SG_DXFER_FROM_DEV
    dxfer_len := BUF_SZ
    dxferp := .to_buf
    cmdp := .to_cdb
    sbp := .to_sbuf
    timeout := 35000 }

/-- Result of `open`: the returned descriptor (negative on failure) and the
value of `errno` after the call. -/
structure OpenResult where
  fd : Int
  errno : Nat

/-- Result of `ioctl`: the returned value (negative on failure), the value of
`errno` after the call and the content of `buf` after the call (followed,
where an environment models them, by the bytes that lie after the array). -/
structure IoctlResult where
  ret : Int
  errno : Nat
  buf : List Nat

/-- The environment: what `open`, `ioctl(SG_IO)` and `strerror` answer. The
`ioctl` is given the descriptor, the command block and the content of the
destination buffer at the time of the call. -/
structure OS where
  sys_open : String → Nat → OpenResult
  sys_ioctl : Int → Nat → sg_io_hdr_t → List Nat → List Nat → IoctlResult
  strerror : Nat → String

/-- What `main` does, in order. -/
inductive Event where
  | open_call (path : String) (flags : Nat)
  | ioctl_call (fd : Int) (request : Nat) (hdr : sg_io_hdr_t)
      (cmd : List Nat) (data : List Nat)
  | close_call (fd : Int)
  | stdout (text : List Char)
  | stderr (text : List Char)
  | bad_read (off : Nat)
  deriving DecidableEq, Repr

/-- A run of `main`: the trace of events and the exit status; the status is
`none` when the run read outside the memory the environment holds, after
which nothing is defined. -/
structure Run where
  trace : List Event
  status : Option Nat
  deriving DecidableEq, Repr

/-- Conversion `%d` of a non-negative `int` such as `errno`. -/
def fmt_d (n : Nat) : List Char := Nat.toDigits 10 n

/-- The function `main`; `argv` holds `argc` strings. -/
def main (os : OS) (argv : List String) : Run :=
  match argv with
  | _ :: dev :: _ =>
    let o := os.sys_open dev O_RDONLY
    if o.fd < 0 then
      { trace :=
          [ .open_call dev O_RDONLY,
            .stderr ("cannot open ".toList ++ dev.toList ++ ", errno=".toList ++
              fmt_d o.errno ++ " (".toList ++ (os.strerror o.errno).toList ++
              ")\n".toList) ],
        status := some EXIT_FAILURE }
    else
      let buf0 := List.replicate BUF_SZ 0
      let r := os.sys_ioctl o.fd SG_IO_REQUEST sg_io_hdr_request cdb buf0
      if r.ret < 0 then
        { trace :=
            [ .open_call dev O_RDONLY,
              .ioctl_call o.fd SG_IO_REQUEST sg_io_hdr_request cdb buf0,
              .close_call o.fd,
              .stderr ("SG_IO ioctl failed, errno=".toList ++ fmt_d r.errno ++
                " (".toList ++ (os.strerror r.errno).toList ++ ")\n".toList) ],
          status := some EXIT_FAILURE }
      else
        let w := walk r.buf
        let head : List Event :=
          [ .open_call dev O_RDONLY,
            .ioctl_call o.fd SG_IO_REQUEST sg_io_hdr_request cdb buf0,
            .close_call o.fd,
            .stdout header_row ] ++ w.rows.map Event.stdout
        match w.stop with
        | .fault off => { trace := head ++ [.bad_read off], status := none }
        | _ => { trace := head ++ legend.map Event.stdout, status := some EXIT_SUCCESS }
  | _ =>
    { trace := [.stderr "dev required\n".toList], status := some EXIT_FAILURE }

/-- Everything a trace writes to standard output, concatenated. -/
def stdout_of : List Event → List Char
  | [] => []
  | .stdout t :: es => t ++ stdout_of es
  | _ :: es => stdout_of es

/-- Everything a trace writes to standard error, concatenated. -/
def stderr_of : List Event → List Char
  | [] => []
  | .stderr t :: es => t ++ stderr_of es
  | _ :: es => stderr_of es

/-! ## Sample inputs -/

/-- A response holding one record at offset 2 (ID 0xc2, flags 0x22, current
60, worst 40, data 35, auxiliary data 0, threshold 0); every other byte is 0. -/
def sample_buf : List Nat :=
  [0, 0] ++ [0xc2, 0x22, 0x00, 60, 40, 35, 0, 0, 0, 0, 0, 0] ++ List.replicate 498 0

/-- A response in which every byte is 1. -/
def ones_buf : List Nat := List.replicate 512 1

/-- A response with two 10-byte groups from offset 2, each starting with a
non-zero byte, followed by zeros. -/
def ten_byte_buf : List Nat :=
  [0, 0] ++ [1, 0, 0, 0, 0, 0, 0, 0, 0, 0] ++ [1, 0, 0, 0, 0, 0, 0, 0, 0, 0] ++
    List.replicate 490 0

/-- A response holding one record at offset 2 whose ID 0x0e has no entry in
`id_str`; every other byte is 0. -/
def unnamed_buf : List Nat :=
  [0, 0] ++ [0x0e, 0x03, 0x00, 100, 99, 7, 0, 0, 0, 0, 0, 10] ++ List.replicate 498 0

/-- An environment in which `open` returns descriptor 3 and the request
succeeds and leaves the given bytes in the destination buffer. -/
def os_returning (resp : List Nat) : OS :=
  { sys_open := fun _ _ => ⟨3, 0⟩,
    sys_ioctl := fun _ _ _ _ _ => ⟨0, 0, resp⟩,
    strerror := fun _ => "" }

/-- An environment in which `open` fails with `errno` 2. -/
def os_open_fails : OS :=
  { sys_open := fun _ _ => ⟨-1, 2⟩,
    sys_ioctl := fun _ _ _ _ _ => ⟨0, 0, List.replicate 512 0⟩,
    strerror := fun _ => "No such file or directory" }

/-- An environment in which `open` returns descriptor 3 and the request
fails with `errno` 5. -/
def os_ioctl_fails : OS :=
  { sys_open := fun _ _ => ⟨3, 0⟩,
    sys_ioctl := fun _ _ _ _ d => ⟨-1, 5, d⟩,
    strerror := fun _ => "Input/output error" }

/-! ## Reading a trace -/

/-- The event is a call of `open`. -/
def Event.is_open_call : Event → Bool
  | .open_call _ _ => true
  | _ => false

/-- The event is a call of `ioctl`. -/
def Event.is_ioctl_call : Event → Bool
  | .ioctl_call _ _ _ _ _ => true
  | _ => false

/-- The event is a call of `close`. -/
def Event.is_close_call : Event → Bool
  | .close_call _ => true
  | _ => false

/-- The event writes to standard output. -/
def Event.is_stdout : Event → Bool
  | .stdout _ => true
  | _ => false

/-- Number of calls of `close` in a trace. -/
def close_count (t : List Event) : Nat := t.countP Event.is_close_call

/-! ## Ranges of the members and reading a row back -/

/-- The values the C types of the members allow: `uint8_t` for the ID, the
current, worst and threshold values, `uint16_t` for the flags and the
auxiliary data, `uint32_t` for the raw data. -/
def raw_value_t.in_range (rv : raw_value_t) : Prop :=
  rv.attr_id < 256 ∧ rv.attr_flags < 65536 ∧ rv.current_value < 256 ∧
  rv.worst_value < 256 ∧ rv.data < 4294967296 ∧ rv.attr_data < 65536 ∧
  rv.threshold < 256

/-- Value of a digit character `0`..`9`, `a`..`f`; 0 for any other character. -/
def digit_val (c : Char) : Nat :=
  if '0' ≤ c ∧ c ≤ '9' then c.toNat - ('0').toNat
  else if 'a' ≤ c ∧ c ≤ 'f' then c.toNat - ('a').toNat + 10
  else 0

/-- Reading a right-justified number column back: skip the leading spaces,
then read the digits in the given base. -/
def parse_num (base : Nat) (s : List Char) : Nat :=
  (s.dropWhile (fun c => c == ' ')).foldl (fun acc c => acc * base + digit_val c) 0

/-- Reading the six number columns of a row back: hexadecimal ID (columns
0..1), hexadecimal flags (34..37), hexadecimal current (47..48) and worst
(51..52) values, decimal data (54..64), hexadecimal threshold (67..68). -/
def parse_row (row : List Char) : Nat × Nat × Nat × Nat × Nat × Nat :=
  ( parse_num 16 (row.take 2),
    parse_num 16 ((row.drop 34).take 4),
    parse_num 16 ((row.drop 47).take 2),
    parse_num 16 ((row.drop 51).take 2),
    parse_num 10 ((row.drop 54).take 11),
    parse_num 16 ((row.drop 67).take 2) )

/-- Number of record slots that start inside the buffer: the offsets
`2 + 12 * k` below `BUF_SZ`. -/
def NUM_SLOTS : Nat := (BUF_SZ - 2 + RAW_VALUE_SZ - 1) / RAW_VALUE_SZ

/-- Number of leading record slots `k = 0, 1, ...` (slot `k` starts at offset
`2 + 12 * k`, below `BUF_SZ`) whose ID byte is not 0. -/
def leading_slots (buf : List Nat) : Nat :=
  ((List.range NUM_SLOTS).takeWhile
    (fun k => buf.getD (2 + RAW_VALUE_SZ * k) 0 != 0)).length

/-! ## Lemmas on the loads and on one step of the loop -/

theorem load8_of_lt (buf : List Nat) (off : Nat) (h : off < buf.length) :
    load8 buf off = .ok (buf.getD off 0) := by
  simp [load8, List.getD, List.getElem?_eq_getElem h]

theorem load8_of_some (buf : List Nat) (off b : Nat) (h : buf[off]? = some b) :
    load8 buf off = .ok b := by
  simp [load8, h]

theorem load16_of_lt (buf : List Nat) (off : Nat) (h : off + 1 < buf.length) :
    load16 buf off = .ok (buf.getD off 0 + 256 * buf.getD (off + 1) 0) := by
  simp [load16, load8_of_lt buf off (by omega), load8_of_lt buf (off + 1) h]

theorem load32_of_lt (buf : List Nat) (off : Nat) (h : off + 3 < buf.length) :
    load32 buf off = .ok ((buf.getD off 0 + 256 * buf.getD (off + 1) 0) +
      65536 * (buf.getD (off + 2) 0 + 256 * buf.getD (off + 3) 0)) := by
  simp [load32, load16_of_lt buf off (by omega), load16_of_lt buf (off + 2) (by omega)]

/-- A record that lies wholly inside the buffer loads without a fault. -/
theorem rv_load_of_le (buf : List Nat) (rv : Nat) (h : rv + RAW_VALUE_SZ ≤ buf.length) :
    rv_load buf rv = .ok
      ⟨buf.getD rv 0,
       buf.getD (rv + 1) 0 + 256 * buf.getD (rv + 2) 0,
       buf.getD (rv + 3) 0,
       buf.getD (rv + 4) 0,
       (buf.getD (rv + 5) 0 + 256 * buf.getD (rv + 6) 0) +
         65536 * (buf.getD (rv + 7) 0 + 256 * buf.getD (rv + 8) 0),
       0,
       buf.getD (rv + 11) 0⟩ := by
  simp only [RAW_VALUE_SZ] at h
  simp [rv_load, OFF_ATTR_ID, OFF_ATTR_FLAGS, OFF_CURRENT_VALUE, OFF_WORST_VALUE,
    OFF_DATA, OFF_THRESHOLD,
    load8_of_lt buf rv (by omega), load16_of_lt buf (rv + 1) (by omega),
    load8_of_lt buf (rv + 3) (by omega), load8_of_lt buf (rv + 4) (by omega),
    load32_of_lt buf (rv + 5) (by omega), load8_of_lt buf (rv + 11) (by omega)]

/-- One iteration of the loop on a record with non-zero ID that loads. -/
theorem walk_from_step (buf : List Nat) (fuel rv id : Nat) (r : raw_value_t)
    (hrv : rv < BUF_SZ) (hid : buf[rv]? = some id) (hnz : id ≠ 0)
    (hr : rv_load buf rv = .ok r) :
    walk_from buf (fuel + 1) rv =
      ⟨print_row r :: (walk_from buf fuel (rv + RAW_VALUE_SZ)).rows,
       (walk_from buf fuel (rv + RAW_VALUE_SZ)).stop⟩ := by
  simp [walk_from, hrv, OFF_ATTR_ID, load8_of_some buf rv id hid, hnz, hr]

/-- The loop stops at a record whose ID is 0. -/
theorem walk_from_sentinel (buf : List Nat) (fuel rv : Nat)
    (hrv : rv < BUF_SZ) (hid : buf[rv]? = some 0) :
    walk_from buf (fuel + 1) rv = ⟨[], .sentinel⟩ := by
  simp [walk_from, hrv, OFF_ATTR_ID, load8_of_some buf rv 0 hid]

/-- The first `n` iterations of the loop over `n` records with non-zero ID
that lie wholly inside the buffer: each writes the row of its record, and the
loop goes on at the record after them. -/
theorem walk_from_prefix (buf : List Nat) :
    ∀ (n fuel rv : Nat), n ≤ fuel → rv + RAW_VALUE_SZ * n ≤ buf.length →
      rv + RAW_VALUE_SZ * n ≤ BUF_SZ →
      (∀ i, i < n → ∃ b, buf[rv + RAW_VALUE_SZ * i]? = some b ∧ b ≠ 0) →
      ∃ rs : List (List Char),
        rs.length = n ∧
        (∀ i, i < n → ∃ r, rv_load buf (rv + RAW_VALUE_SZ * i) = .ok r ∧
          rs[i]? = some (print_row r)) ∧
        walk_from buf fuel rv =
          ⟨rs ++ (walk_from buf (fuel - n) (rv + RAW_VALUE_SZ * n)).rows,
           (walk_from buf (fuel - n) (rv + RAW_VALUE_SZ * n)).stop⟩ := by
  intro n
  induction n with
  | zero =>
    intro fuel rv _ _ _ _
    exact ⟨[], rfl, fun i hi => absurd hi (Nat.not_lt_zero i), by simp⟩
  | succ n ih =>
    intro fuel rv hfuel hlen hsz hid
    obtain ⟨fuel, rfl⟩ : ∃ f, fuel = f + 1 := ⟨fuel - 1, by omega⟩
    have hsize : RAW_VALUE_SZ = 12 := rfl
    rw [hsize] at hlen hsz
    obtain ⟨b, hb, hbnz⟩ := hid 0 (Nat.succ_pos n)
    obtain ⟨r0, hload⟩ : ∃ r, rv_load buf rv = .ok r :=
      ⟨_, rv_load_of_le buf rv (by rw [hsize]; omega)⟩
    have hstep := walk_from_step buf fuel rv b r0 (by omega) (by simpa using hb) hbnz hload
    have hshift : ∀ i, rv + RAW_VALUE_SZ * (i + 1) = rv + RAW_VALUE_SZ + RAW_VALUE_SZ * i :=
      fun i => by ring
    obtain ⟨rs, hrs_len, hrs_rows, hrs_walk⟩ :=
      ih fuel (rv + RAW_VALUE_SZ) (by omega) (by rw [hsize]; omega) (by rw [hsize]; omega) (by
        intro i hi
        have := hid (i + 1) (by omega)
        rwa [hshift] at this)
    refine ⟨print_row r0 :: rs, by simp [hrs_len], ?_, ?_⟩
    · intro i hi
      cases i with
      | zero => exact ⟨r0, hload, by simp⟩
      | succ i =>
        obtain ⟨r, hr, hrow⟩ := hrs_rows i (by omega)
        refine ⟨r, ?_, by simpa using hrow⟩
        rwa [hshift]
    · rw [hstep, hrs_walk]
      have e1 : fuel + 1 - (n + 1) = fuel - n := by omega
      simp [e1, hshift]

/-- The loop never uses up its iterations: `fuel` iterations are enough as
soon as `BUF_SZ + 12 ≤ rv + 12 * fuel`. -/
theorem walk_from_stop_ne_no_fuel (buf : List Nat) :
    ∀ (fuel rv : Nat), 0 < fuel → BUF_SZ + RAW_VALUE_SZ ≤ rv + RAW_VALUE_SZ * fuel →
      (walk_from buf fuel rv).stop ≠ .no_fuel := by
  intro fuel
  induction fuel with
  | zero => intro rv h _; exact absurd h (Nat.lt_irrefl 0)
  | succ fuel ih =>
    intro rv _ hsz
    have hsize : RAW_VALUE_SZ = 12 := rfl
    rw [hsize] at hsz
    unfold walk_from
    by_cases hrv : rv < BUF_SZ
    · rw [if_pos hrv]
      cases hl : load8 buf (rv + OFF_ATTR_ID) with
      | error e => simp
      | ok id =>
        by_cases hid : id = 0
        · simp [hid]
        · cases hr : rv_load buf rv with
          | error e => simp [hid]
          | ok r =>
            simp only [hid, ne_eq, not_false_eq_true, if_true]
            exact ih (rv + RAW_VALUE_SZ) (by omega) (by rw [hsize]; omega)
    · rw [if_neg hrv]; simp

/-- The loop of `main` always ends by itself: at a zero ID, at the end of the
buffer, or in a read outside the buffer. -/
theorem walk_stop_ne_no_fuel (buf : List Nat) : (walk buf).stop ≠ .no_fuel :=
  walk_from_stop_ne_no_fuel buf BUF_SZ 2 (by decide) (by decide)

/-- Every byte of `ones_buf` is 1. -/
theorem ones_buf_get (k : Nat) (h : k < 512) : ones_buf[k]? = some 1 := by
  show (List.replicate 512 1)[k]? = some 1
  rw [List.getElem?_replicate, if_pos h]

/-! ## The record walk: number and order of rows -/

/-- C1, the claim as written (records of 10 bytes, up to 51 of them) fails:
with two 10-byte groups at offsets 2 and 12 whose first byte is non-zero and a
zero byte at offset 22, the walk does not write two rows. -/
theorem walk_ten_byte_records_refuted :
    ¬ ∀ (N : Nat) (buf : List Nat), N ≤ 51 → buf.length = 512 →
        (∀ i, i < N → ∃ b, buf[2 + 10 * i]? = some b ∧ b ≠ 0) →
        buf[2 + 10 * N]? = some 0 →
        (walk buf).rows.length = N := by
  intro h
  have h2 := h 2 ten_byte_buf (by decide) (by decide)
    (by
      intro i hi
      have hi' : i = 0 ∨ i = 1 := by omega
      rcases hi' with rfl | rfl
      · exact ⟨1, by decide, by decide⟩
      · exact ⟨1, by decide, by decide⟩)
    (by decide)
  revert h2
  decide

/-- C1 (amended): for every `N ≤ 42` and every 512-byte buffer in which `N`
records of `sizeof(raw_value_t)` = 12 bytes, all with non-zero attribute ID,
lie consecutively from offset 2 and are followed by a record whose ID is 0,
the walk stops at that record having written exactly `N` rows, and row `i` is
the rendering of the record at offset `2 + 12 * i`. -/
theorem walk_rows_of_terminated_records (N : Nat) (buf : List Nat)
    (hN : N ≤ 42) (hlen : buf.length = BUF_SZ)
    (hid : ∀ i, i < N → ∃ b, buf[2 + RAW_VALUE_SZ * i]? = some b ∧ b ≠ 0)
    (hend : buf[2 + RAW_VALUE_SZ * N]? = some 0) :
    (walk buf).rows.length = N ∧ (walk buf).stop = .sentinel ∧
    ∀ i, i < N → ∃ r, rv_load buf (2 + RAW_VALUE_SZ * i) = .ok r ∧
      (walk buf).rows[i]? = some (print_row r) := by
  have hsize : RAW_VALUE_SZ = 12 := rfl
  have hbuf : BUF_SZ = 512 := rfl
  obtain ⟨rs, hrs_len, hrs_rows, hrs_walk⟩ :=
    walk_from_prefix buf N BUF_SZ 2 (by rw [hbuf]; omega)
      (by rw [hlen, hsize, hbuf]; omega) (by rw [hsize, hbuf]; omega) hid
  obtain ⟨fuel, hfuel⟩ : ∃ f, BUF_SZ - N = f + 1 := ⟨BUF_SZ - N - 1, by rw [hbuf]; omega⟩
  have hstop := walk_from_sentinel buf fuel (2 + RAW_VALUE_SZ * N)
    (by rw [hsize, hbuf]; omega) hend
  rw [hfuel, hstop] at hrs_walk
  have hwalk : walk buf = ⟨rs, .sentinel⟩ := by
    rw [walk, hrs_walk]; simp
  rw [hwalk]
  exact ⟨hrs_len, rfl, hrs_rows⟩

/-- The amended C1 at the sample response: one record, then a zero ID. -/
theorem walk_rows_of_terminated_records_witness :
    (walk sample_buf).rows.length = 1 ∧ (walk sample_buf).stop = .sentinel ∧
    ∀ i, i < 1 → ∃ r, rv_load sample_buf (2 + RAW_VALUE_SZ * i) = .ok r ∧
      (walk sample_buf).rows[i]? = some (print_row r) :=
  walk_rows_of_terminated_records 1 sample_buf (by decide) (by decide)
    (by
      intro i hi
      obtain rfl : i = 0 := by omega
      exact ⟨0xc2, by decide, by decide⟩)
    (by decide)

/-- C2, the claim as written (51 rows) fails: on the buffer whose bytes are
all 1, in which no byte and so no attribute ID is 0, the walk does not write
51 rows. -/
theorem walk_fifty_one_rows_refuted :
    ¬ ∀ (buf : List Nat), buf.length = 512 →
        (∀ i, i < 51 → ∃ b, buf[2 + 10 * i]? = some b ∧ b ≠ 0) →
        (walk buf).rows.length = 51 := by
  intro h
  have h51 := h ones_buf (by decide)
    (by
      intro i hi
      refine ⟨1, ?_, by decide⟩
      exact ones_buf_get (2 + 10 * i) (by omega))
  revert h51
  decide

/-- C2 (amended): 42 is the number of whole 12-byte records that fit in the
510 bytes after the 2-byte offset, and for every 512-byte buffer in which none
of these 42 records has attribute ID 0 the walk writes them as its first 42
rows, in buffer order. -/
theorem walk_whole_records_of_full_buffer (buf : List Nat)
    (hlen : buf.length = BUF_SZ)
    (hid : ∀ i, i < 42 → ∃ b, buf[2 + RAW_VALUE_SZ * i]? = some b ∧ b ≠ 0) :
    (BUF_SZ - 2) / RAW_VALUE_SZ = 42 ∧ 42 ≤ (walk buf).rows.length ∧
    ∀ i, i < 42 → ∃ r, rv_load buf (2 + RAW_VALUE_SZ * i) = .ok r ∧
      (walk buf).rows[i]? = some (print_row r) := by
  have hsize : RAW_VALUE_SZ = 12 := rfl
  have hbuf : BUF_SZ = 512 := rfl
  obtain ⟨rs, hrs_len, hrs_rows, hrs_walk⟩ :=
    walk_from_prefix buf 42 BUF_SZ 2 (by rw [hbuf]; omega)
      (by rw [hlen, hsize, hbuf]; omega) (by rw [hsize, hbuf]; omega) hid
  have hrows : (walk buf).rows =
      rs ++ (walk_from buf (BUF_SZ - 42) (2 + RAW_VALUE_SZ * 42)).rows := by
    rw [walk, hrs_walk]
  refine ⟨by decide, ?_, ?_⟩
  · rw [hrows, List.length_append, hrs_len]; omega
  · intro i hi
    obtain ⟨r, hr, hrow⟩ := hrs_rows i hi
    refine ⟨r, hr, ?_⟩
    rw [hrows, List.getElem?_append_left (by rw [hrs_len]; exact hi)]
    exact hrow

/-- The amended C2 at the buffer whose bytes are all 1. -/
theorem walk_whole_records_of_full_buffer_witness :
    (BUF_SZ - 2) / RAW_VALUE_SZ = 42 ∧ 42 ≤ (walk ones_buf).rows.length ∧
    ∀ i, i < 42 → ∃ r, rv_load ones_buf (2 + RAW_VALUE_SZ * i) = .ok r ∧
      (walk ones_buf).rows[i]? = some (print_row r) :=
  walk_whole_records_of_full_buffer ones_buf (by decide)
    (by
      intro i hi
      refine ⟨1, ?_, by decide⟩
      have hsize : RAW_VALUE_SZ = 12 := rfl
      exact ones_buf_get (2 + RAW_VALUE_SZ * i) (by rw [hsize]; omega))

/-! ## The record walk: reads past the end of the buffer -/

/-- C3 (the code at the failing input): on the 512-byte buffer whose bytes
are all 1 the loop condition admits the record at offset 506, of which only
the bytes 506..511 lie in the buffer; loading its member `data` reads offset
512, outside the buffer, and the run of `main` has no defined status. -/
theorem walk_reads_past_buffer :
    ones_buf.length = BUF_SZ ∧
    506 < BUF_SZ ∧ BUF_SZ < 506 + RAW_VALUE_SZ ∧
    load8 ones_buf (506 + OFF_ATTR_ID) = .ok 1 ∧
    rv_load ones_buf 506 = .error 512 ∧
    (walk ones_buf).stop = .fault 512 ∧
    (main (os_returning ones_buf) ["tiny-smart", "/dev/sda"]).status = none :=
  ⟨by decide, by decide, by decide, rfl, rfl, by decide, by decide⟩

/-! ## The empty table -/

/-- C4: for every response (of 512 bytes or any other length) whose byte at
offset 2 is 0, whatever the other bytes are, the walk writes no row; a run of `main` in which `open`
and the request succeed and leave this response in `buf` writes exactly the
header row followed by the legend to standard output and exits with status
0. -/
theorem main_empty_table (os : OS) (prog dev : String) (rest : List String)
    (buf : List Nat)
    (hopen : 0 ≤ (os.sys_open dev O_RDONLY).fd)
    (hreq : 0 ≤ (os.sys_ioctl (os.sys_open dev O_RDONLY).fd SG_IO_REQUEST
      sg_io_hdr_request cdb (List.replicate BUF_SZ 0)).ret)
    (hresp : (os.sys_ioctl (os.sys_open dev O_RDONLY).fd SG_IO_REQUEST
      sg_io_hdr_request cdb (List.replicate BUF_SZ 0)).buf = buf)
    (hzero : buf[2]? = some 0) :
    (walk buf).rows = [] ∧
    stdout_of (main os (prog :: dev :: rest)).trace = header_row ++ legend.flatten ∧
    (main os (prog :: dev :: rest)).status = some EXIT_SUCCESS := by
  have hwalk : walk buf = ⟨[], .sentinel⟩ :=
    walk_from_sentinel buf 511 2 (by decide) hzero
  have hopen' : ¬ (os.sys_open dev O_RDONLY).fd < 0 := not_lt.mpr hopen
  have hreq' : ¬ (os.sys_ioctl (os.sys_open dev O_RDONLY).fd SG_IO_REQUEST
      sg_io_hdr_request cdb (List.replicate BUF_SZ 0)).ret < 0 := not_lt.mpr hreq
  refine ⟨by rw [hwalk], ?_, ?_⟩
  · simp only [main, if_neg hopen', if_neg hreq', hresp, hwalk]
    simp [stdout_of, legend]
  · simp only [main, if_neg hopen', if_neg hreq', hresp, hwalk]

/-- C4 at the all-zero response. -/
theorem main_empty_table_witness :
    (walk (List.replicate 512 0)).rows = [] ∧
    stdout_of (main (os_returning (List.replicate 512 0))
      ["tiny-smart", "/dev/sda"]).trace = header_row ++ legend.flatten ∧
    (main (os_returning (List.replicate 512 0))
      ["tiny-smart", "/dev/sda"]).status = some EXIT_SUCCESS :=
  main_empty_table (os_returning (List.replicate 512 0)) "tiny-smart" "/dev/sda" []
    (List.replicate 512 0) (by decide) (by decide) rfl (by decide)

/-! ## Widths of the columns of a row -/

theorem toDigits_length_le (b n e : Nat) (hb : 2 ≤ b) (he : 0 < e) (h : n < b ^ e) :
    (Nat.toDigits b n).length ≤ e :=
  Nat.toDigitsCore_length b hb (n + 1) n e h he

theorem pad_left_length (w : Nat) (s : List Char) (h : s.length ≤ w) :
    (pad_left w s).length = w := by
  simp [pad_left]; omega

theorem fmt_x_two_length (n : Nat) (h : n < 256) : (fmt_x 2 n).length = 2 :=
  pad_left_length 2 _ (toDigits_length_le 16 n 2 (by decide) (by decide) (by simpa using h))

theorem fmt_x_four_length (n : Nat) (h : n < 65536) : (fmt_x 4 n).length = 4 :=
  pad_left_length 4 _ (toDigits_length_le 16 n 4 (by decide) (by decide) (by simpa using h))

theorem fmt_s_left_prec_length (w : Nat) (s : String) :
    (fmt_s_left_prec w w s).length = w := by
  simp [fmt_s_left_prec, pad_right]

/-- The name column of a row: the 30 characters after the ID and a space. -/
theorem print_row_name_column (rv : raw_value_t) (hid : rv.attr_id < 256) :
    ((print_row rv).drop 3).take 30 = fmt_s_left_prec 30 30 (attr_name rv.attr_id) := by
  have e : print_row rv =
      (fmt_x 2 rv.attr_id ++ [' ']) ++
        (fmt_s_left_prec 30 30 (attr_name rv.attr_id) ++
          ([' '] ++ fmt_x 4 rv.attr_flags ++ [' '] ++
            flag_chars rv.attr_flags ++ [' ', ' '] ++
            fmt_x 2 rv.current_value ++ [' ', ' '] ++
            fmt_x 2 rv.worst_value ++ [' '] ++
            fmt_u 11 rv.data ++ [' ', ' '] ++
            fmt_x 2 rv.threshold ++ ['\n'])) := by
    simp only [print_row, List.append_assoc]
  rw [e, List.drop_left' (by simp [fmt_x_two_length _ hid]),
    List.take_left' (fmt_s_left_prec_length 30 _)]

/-- The flag column of a row: the 6 characters after the ID, the name, the
hexadecimal flags and their separating spaces. -/
theorem print_row_flag_column (rv : raw_value_t) (hid : rv.attr_id < 256)
    (hfl : rv.attr_flags < 65536) :
    ((print_row rv).drop 39).take 6 = flag_chars rv.attr_flags := by
  have e : print_row rv =
      (fmt_x 2 rv.attr_id ++ [' '] ++
        fmt_s_left_prec 30 30 (attr_name rv.attr_id) ++ [' '] ++
        fmt_x 4 rv.attr_flags ++ [' ']) ++
        (flag_chars rv.attr_flags ++
          ([' ', ' '] ++
            fmt_x 2 rv.current_value ++ [' ', ' '] ++
            fmt_x 2 rv.worst_value ++ [' '] ++
            fmt_u 11 rv.data ++ [' ', ' '] ++
            fmt_x 2 rv.threshold ++ ['\n'])) := by
    simp only [print_row, List.append_assoc]
  rw [e, List.drop_left' (by
      simp [fmt_x_two_length _ hid, fmt_x_four_length _ hfl, fmt_s_left_prec_length]),
    List.take_left' (by simp [flag_chars])]

/-- Testing `flags & (1 << i)` is testing bit `i` of `flags`. -/
theorem land_two_pow_ne_zero_iff (f i : Nat) : f &&& 2 ^ i ≠ 0 ↔ f.testBit i = true := by
  constructor
  · intro h
    obtain ⟨j, hj⟩ := Nat.ne_zero_implies_bit_true h
    rw [Nat.testBit_and, Nat.testBit_two_pow] at hj
    simp only [Bool.and_eq_true, decide_eq_true_eq] at hj
    obtain ⟨hf, rfl⟩ := hj
    exact hf
  · intro h h0
    have : (f &&& 2 ^ i).testBit i = true := by
      rw [Nat.testBit_and, Nat.testBit_two_pow_self, h]; rfl
    rw [h0, Nat.zero_testBit] at this
    exact Bool.noConfusion this

theorem flag_char_eq (f i : Nat) (c : Char) :
    flag_char f (2 ^ i) c = if f.testBit i = true then c else ' ' := by
  unfold flag_char
  by_cases h : f.testBit i = true
  · rw [if_pos ((land_two_pow_ne_zero_iff f i).mpr h), if_pos h]
  · rw [if_neg (fun hn => h ((land_two_pow_ne_zero_iff f i).mp hn)), if_neg h]

/-! ## Flag letters -/

/-- C5: for every record with an 8-bit ID and 16-bit flags `f`, the six
flag-indicator characters of its row (columns 39 to 44) are, in this order,
the letters `w o p e c s` for bits 0 to 5 of `f`: position `i` shows its
letter if and only if bit `i` of `f` is set and a space otherwise, whatever
the other bits of `f` are. -/
theorem print_row_flag_letters (rv : raw_value_t) (hid : rv.attr_id < 256)
    (hfl : rv.attr_flags < 65536) :
    ((print_row rv).drop 39).take 6 =
      [ if rv.attr_flags.testBit 0 = true then 'w' else ' ',
        if rv.attr_flags.testBit 1 = true then 'o' else ' ',
        if rv.attr_flags.testBit 2 = true then 'p' else ' ',
        if rv.attr_flags.testBit 3 = true then 'e' else ' ',
        if rv.attr_flags.testBit 4 = true then 'c' else ' ',
        if rv.attr_flags.testBit 5 = true then 's' else ' ' ] := by
  rw [print_row_flag_column rv hid hfl]
  have h0 : ATTR_FLAG_WARRANTY = 2 ^ 0 := rfl
  have h1 : ATTR_FLAG_OFFLINE = 2 ^ 1 := rfl
  have h2 : ATTR_FLAG_PERFORMANCE = 2 ^ 2 := rfl
  have h3 : ATTR_FLAG_ERROR_RATE = 2 ^ 3 := rfl
  have h4 : ATTR_FLAG_EVENT_COUNT = 2 ^ 4 := rfl
  have h5 : ATTR_FLAG_SELF_PRESERV = 2 ^ 5 := rfl
  unfold flag_chars
  rw [h0, h1, h2, h3, h4, h5]
  simp only [flag_char_eq]

/-- C5 at the record of the sample response (flags 0x22: bits 1 and 5). -/
theorem print_row_flag_letters_witness :
    ((print_row ⟨0xc2, 0x22, 60, 40, 35, 0, 0⟩).drop 39).take 6 =
      [ if (0x22).testBit 0 = true then 'w' else ' ',
        if (0x22).testBit 1 = true then 'o' else ' ',
        if (0x22).testBit 2 = true then 'p' else ' ',
        if (0x22).testBit 3 = true then 'e' else ' ',
        if (0x22).testBit 4 = true then 'c' else ' ',
        if (0x22).testBit 5 = true then 's' else ' ' ] :=
  print_row_flag_letters ⟨0xc2, 0x22, 60, 40, 35, 0, 0⟩ (by decide) (by decide)

/-! ## Names -/

/-- C6, the claim as written fails: ID 0xb3 has the entry "Used Reserved
Block Count Total" of 31 characters; the name column of its row is not that
name (padded to the column), and the name occurs nowhere in the row. -/
theorem print_row_long_name_cut :
    id_str 0xb3 = some "Used Reserved Block Count Total" ∧
    ((print_row ⟨0xb3, 0, 0, 0, 0, 0, 0⟩).drop 3).take 30 ≠
      pad_right 30 "Used Reserved Block Count Total".toList ∧
    ((print_row ⟨0xb3, 0, 0, 0, 0, 0, 0⟩).drop 3).take 30 =
      "Used Reserved Block Count Tota".toList ∧
    ¬ "Used Reserved Block Count Total".toList <:+: print_row ⟨0xb3, 0, 0, 0, 0, 0, 0⟩ := by
  decide

/-- C6 (amended): for every attribute ID that has an entry in `id_str`, the
name column of the row of a record with that ID is the entry's name cut to
its first 30 characters and padded with spaces to 30 columns; when the name
has at most 30 characters it is the complete, unaltered name followed by the
padding spaces. -/
theorem print_row_name_of_entry (rv : raw_value_t) (name : String)
    (hid : rv.attr_id < 256) (hname : id_str rv.attr_id = some name) :
    ((print_row rv).drop 3).take 30 = pad_right 30 (name.toList.take 30) ∧
    (name.length ≤ 30 →
      ((print_row rv).drop 3).take 30 =
        name.toList ++ List.replicate (30 - name.length) ' ') := by
  have hcol : ((print_row rv).drop 3).take 30 = pad_right 30 (name.toList.take 30) := by
    rw [print_row_name_column rv hid]
    simp [fmt_s_left_prec, attr_name, hname]
  refine ⟨hcol, fun hlen => ?_⟩
  have hlen' : name.toList.length ≤ 30 := by simpa using hlen
  rw [hcol, List.take_of_length_le hlen']
  simp [pad_right]

/-- The amended C6 at a record with ID 0xc2, "Temperature". -/
theorem print_row_name_of_entry_witness :
    ((print_row ⟨0xc2, 0x22, 60, 40, 35, 0, 0⟩).drop 3).take 30 =
      pad_right 30 ("Temperature".toList.take 30) ∧
    ("Temperature".length ≤ 30 →
      ((print_row ⟨0xc2, 0x22, 60, 40, 35, 0, 0⟩).drop 3).take 30 =
        "Temperature".toList ++ List.replicate (30 - "Temperature".length) ' ') :=
  print_row_name_of_entry ⟨0xc2, 0x22, 60, 40, 35, 0, 0⟩ "Temperature" (by decide) rfl

/-- C7: the name lookup is total on the 8-bit attribute ID. For every buffer
of bytes and every record that lies wholly inside it, at an offset the loop
condition admits, whose ID is not 0 and has no entry in `id_str`: the ID is a
valid index of the 256-entry table, the record loads and renders as a row
whose name column is "?" followed by 29 spaces, and the loop goes on with
the next record (no fault, no stop). -/
theorem walk_from_unnamed_id (buf : List Nat) (fuel rv id : Nat)
    (hbytes : ∀ b, b ∈ buf → b < 256)
    (hrv : rv < BUF_SZ) (hin : rv + RAW_VALUE_SZ ≤ buf.length)
    (hid : buf[rv]? = some id) (hnz : id ≠ 0) (hnone : id_str id = none) :
    id < ID_STR_SZ ∧
    ∃ r, rv_load buf rv = .ok r ∧ r.attr_id = id ∧
      ((print_row r).drop 3).take 30 = '?' :: List.replicate 29 ' ' ∧
      walk_from buf (fuel + 1) rv =
        ⟨print_row r :: (walk_from buf fuel (rv + RAW_VALUE_SZ)).rows,
         (walk_from buf fuel (rv + RAW_VALUE_SZ)).stop⟩ := by
  have hlt : id < 256 := hbytes id (List.getElem?_mem hid)
  have hsize : RAW_VALUE_SZ = 12 := rfl
  have hD : buf.getD rv 0 = id := by
    simp [List.getD, hid]
  have hload := rv_load_of_le buf rv hin
  rw [hD] at hload
  refine ⟨hlt, _, hload, rfl, ?_, walk_from_step buf fuel rv id _ hrv hid hnz hload⟩
  rw [print_row_name_column _ hlt]
  simp only [attr_name, hnone]
  decide

/-- C7 at a response whose first record has the ID 0x0e. -/
theorem walk_from_unnamed_id_witness :
    0x0e < ID_STR_SZ ∧
    ∃ r, rv_load unnamed_buf 2 = .ok r ∧ r.attr_id = 0x0e ∧
      ((print_row r).drop 3).take 30 = '?' :: List.replicate 29 ' ' ∧
      walk_from unnamed_buf (511 + 1) 2 =
        ⟨print_row r :: (walk_from unnamed_buf 511 (2 + RAW_VALUE_SZ)).rows,
         (walk_from unnamed_buf 511 (2 + RAW_VALUE_SZ)).stop⟩ :=
  walk_from_unnamed_id unnamed_buf 511 2 0x0e (by decide) (by decide) (by decide)
    (by decide) (by decide) (by decide)

/-! ## The sample row -/

/-- C8: on the sample response (one record at offset 2 with ID 0xc2, flags
0x22, current 60, worst 40, data 35, auxiliary data 0, threshold 0, all other
bytes 0) the walk writes exactly one row and stops at the zero ID after it;
the row is the 70-character string made of "c2", a space, "Temperature" and
19 spaces, a space, "  22", a space, " o   s", two spaces, "3c", two
spaces, "28", a space, nine spaces and "35", two spaces, " 0" and a
newline. -/
theorem walk_sample_row :
    sample_buf.length = 512 ∧
    walk sample_buf =
      ⟨["c2 Temperature                      22  o   s  3c  28          35   0\n".toList],
       .sentinel⟩ ∧
    "c2 Temperature                      22  o   s  3c  28          35   0\n".toList =
      "c2".toList ++ [' '] ++ ("Temperature".toList ++ List.replicate 19 ' ') ++ [' '] ++
      "  22".toList ++ [' '] ++ " o   s".toList ++ [' ', ' '] ++ "3c".toList ++
      [' ', ' '] ++ "28".toList ++ [' '] ++ (List.replicate 9 ' ' ++ "35".toList) ++
      [' ', ' '] ++ " 0".toList ++ ['\n'] ∧
    "c2 Temperature                      22  o   s  3c  28          35   0\n".length = 70 := by
  decide

/-! ## The command descriptor block -/

/-- C9 (the code at the failing input): the byte-block value is shifted by 1
and lands on bit 1, inside the 2-bit range of the transfer-length value at
bits 0..1; with the values of the source the flags byte is 0x0a, and it is
the same byte whether the byte-block value is 1 or 0, so the byte-block bit
cannot be read back. -/
theorem cdb_flags_byt_blok_lost :
    cdb[2]? = some 0x0a ∧
    cdb_flags CBD_T_LENGTH CBD_BYT_BLOK CBD_T_DIR CBD_CK_COND CBD_OFF_LINE = 0x0a ∧
    cdb_flags CBD_T_LENGTH 1 CBD_T_DIR CBD_CK_COND CBD_OFF_LINE =
      cdb_flags CBD_T_LENGTH 0 CBD_T_DIR CBD_CK_COND CBD_OFF_LINE ∧
    (CBD_T_LENGTH <<< 0) &&& (CBD_BYT_BLOK <<< 1) ≠ 0 := by
  decide

/-- C10: `cdb` is 12 bytes long and, outside the flags byte (byte 2), holds
0xa1, 0x0c (protocol 6 in bits 4..1, bit 0 clear), 0xd0, 1, 0, 0x4f, 0xc2, 0,
0xb0, 0, 0 at bytes 0, 1, 3, 4, 5, 6, 7, 8, 9, 10, 11. -/
theorem cdb_bytes :
    cdb.length = 12 ∧
    cdb[0]? = some 0xa1 ∧
    cdb[1]? = some 0x0c ∧ 0x0c / 2 % 16 = CBD_PROTOCOL_DMA ∧ 0x0c % 2 = 0 ∧
    cdb[3]? = some 0xd0 ∧
    cdb[4]? = some 1 ∧
    cdb[5]? = some 0 ∧
    cdb[6]? = some 0x4f ∧
    cdb[7]? = some 0xc2 ∧
    cdb[8]? = some 0 ∧
    cdb[9]? = some 0xb0 ∧
    cdb[10]? = some 0 ∧
    cdb[11]? = some 0 := by
  decide

/-! ## The runs of `main`: failures, the device handle, the request -/

/-- C11: for every device path whose `open` fails, `main` only calls `open`
and writes the open-failure message (path, `errno` and its text) to standard
error; it returns the non-zero status `EXIT_FAILURE`, and its trace holds no
`SG_IO` request, no `close` and no output on standard output. -/
theorem main_open_failure (os : OS) (prog dev : String) (rest : List String)
    (hfail : (os.sys_open dev O_RDONLY).fd < 0) :
    (main os (prog :: dev :: rest)).trace =
      [ .open_call dev O_RDONLY,
        .stderr ("cannot open ".toList ++ dev.toList ++ ", errno=".toList ++
          fmt_d (os.sys_open dev O_RDONLY).errno ++ " (".toList ++
          (os.strerror (os.sys_open dev O_RDONLY).errno).toList ++ ")\n".toList) ] ∧
    (main os (prog :: dev :: rest)).status = some EXIT_FAILURE ∧ EXIT_FAILURE ≠ 0 ∧
    (∀ e, e ∈ (main os (prog :: dev :: rest)).trace →
      e.is_ioctl_call = false ∧ e.is_close_call = false ∧ e.is_stdout = false) ∧
    stdout_of (main os (prog :: dev :: rest)).trace = [] := by
  have htrace : (main os (prog :: dev :: rest)).trace =
      [ .open_call dev O_RDONLY,
        .stderr ("cannot open ".toList ++ dev.toList ++ ", errno=".toList ++
          fmt_d (os.sys_open dev O_RDONLY).errno ++ " (".toList ++
          (os.strerror (os.sys_open dev O_RDONLY).errno).toList ++ ")\n".toList) ] := by
    simp only [main, if_pos hfail]
  refine ⟨htrace, by simp only [main, if_pos hfail], by decide, ?_, ?_⟩
  · intro e he
    rw [htrace] at he
    simp only [List.mem_cons, List.mem_singleton, List.not_mem_nil, or_false] at he
    rcases he with rfl | rfl <;> exact ⟨rfl, rfl, rfl⟩
  · rw [htrace]; rfl

/-- C11 at an environment in which `open` fails with `errno` 2. -/
theorem main_open_failure_witness :
    (main os_open_fails ["tiny-smart", "/dev/none"]).trace =
      [ .open_call "/dev/none" O_RDONLY,
        .stderr ("cannot open ".toList ++ "/dev/none".toList ++ ", errno=".toList ++
          fmt_d (os_open_fails.sys_open "/dev/none" O_RDONLY).errno ++ " (".toList ++
          (os_open_fails.strerror
            (os_open_fails.sys_open "/dev/none" O_RDONLY).errno).toList ++ ")\n".toList) ] ∧
    (main os_open_fails ["tiny-smart", "/dev/none"]).status = some EXIT_FAILURE ∧
    EXIT_FAILURE ≠ 0 ∧
    (∀ e, e ∈ (main os_open_fails ["tiny-smart", "/dev/none"]).trace →
      e.is_ioctl_call = false ∧ e.is_close_call = false ∧ e.is_stdout = false) ∧
    stdout_of (main os_open_fails ["tiny-smart", "/dev/none"]).trace = [] :=
  main_open_failure os_open_fails "tiny-smart" "/dev/none" [] (by decide)

/-- The run of `main` when `open` and the request both succeed and the loop
ends without a read outside what the buffer holds. -/
theorem main_of_success (os : OS) (prog dev : String) (rest : List String)
    (hopen : 0 ≤ (os.sys_open dev O_RDONLY).fd)
    (hreq : 0 ≤ (os.sys_ioctl (os.sys_open dev O_RDONLY).fd SG_IO_REQUEST
      sg_io_hdr_request cdb (List.replicate BUF_SZ 0)).ret)
    (hstop : ∀ off, (walk (os.sys_ioctl (os.sys_open dev O_RDONLY).fd SG_IO_REQUEST
      sg_io_hdr_request cdb (List.replicate BUF_SZ 0)).buf).stop ≠ .fault off) :
    main os (prog :: dev :: rest) =
      { trace :=
          [ .open_call dev O_RDONLY,
            .ioctl_call (os.sys_open dev O_RDONLY).fd SG_IO_REQUEST sg_io_hdr_request cdb
              (List.replicate BUF_SZ 0),
            .close_call (os.sys_open dev O_RDONLY).fd,
            .stdout header_row ] ++
          (walk (os.sys_ioctl (os.sys_open dev O_RDONLY).fd SG_IO_REQUEST
            sg_io_hdr_request cdb (List.replicate BUF_SZ 0)).buf).rows.map Event.stdout ++
          legend.map Event.stdout,
        status := some EXIT_SUCCESS } := by
  cases h : (walk (os.sys_ioctl (os.sys_open dev O_RDONLY).fd SG_IO_REQUEST
      sg_io_hdr_request cdb (List.replicate BUF_SZ 0)).buf).stop with
  | fault off => exact absurd h (hstop off)
  | sentinel => simp only [main, if_neg (not_lt.mpr hopen), if_neg (not_lt.mpr hreq), h]
  | buf_end => simp only [main, if_neg (not_lt.mpr hopen), if_neg (not_lt.mpr hreq), h]
  | no_fuel => simp only [main, if_neg (not_lt.mpr hopen), if_neg (not_lt.mpr hreq), h]

/-- The run of `main` when `open` and the request both succeed and the loop
reads outside what the buffer holds. -/
theorem main_of_success_fault (os : OS) (prog dev : String) (rest : List String) (off : Nat)
    (hopen : 0 ≤ (os.sys_open dev O_RDONLY).fd)
    (hreq : 0 ≤ (os.sys_ioctl (os.sys_open dev O_RDONLY).fd SG_IO_REQUEST
      sg_io_hdr_request cdb (List.replicate BUF_SZ 0)).ret)
    (hstop : (walk (os.sys_ioctl (os.sys_open dev O_RDONLY).fd SG_IO_REQUEST
      sg_io_hdr_request cdb (List.replicate BUF_SZ 0)).buf).stop = .fault off) :
    main os (prog :: dev :: rest) =
      { trace :=
          [ .open_call dev O_RDONLY,
            .ioctl_call (os.sys_open dev O_RDONLY).fd SG_IO_REQUEST sg_io_hdr_request cdb
              (List.replicate BUF_SZ 0),
            .close_call (os.sys_open dev O_RDONLY).fd,
            .stdout header_row ] ++
          (walk (os.sys_ioctl (os.sys_open dev O_RDONLY).fd SG_IO_REQUEST
            sg_io_hdr_request cdb (List.replicate BUF_SZ 0)).buf).rows.map Event.stdout ++
          [.bad_read off],
        status := none } := by
  simp only [main, if_neg (not_lt.mpr hopen), if_neg (not_lt.mpr hreq), hstop]

/-- The run of `main` when `open` succeeds and the request fails. -/
theorem main_of_request_failure (os : OS) (prog dev : String) (rest : List String)
    (hopen : 0 ≤ (os.sys_open dev O_RDONLY).fd)
    (hreq : (os.sys_ioctl (os.sys_open dev O_RDONLY).fd SG_IO_REQUEST
      sg_io_hdr_request cdb (List.replicate BUF_SZ 0)).ret < 0) :
    main os (prog :: dev :: rest) =
      { trace :=
          [ .open_call dev O_RDONLY,
            .ioctl_call (os.sys_open dev O_RDONLY).fd SG_IO_REQUEST sg_io_hdr_request cdb
              (List.replicate BUF_SZ 0),
            .close_call (os.sys_open dev O_RDONLY).fd,
            .stderr ("SG_IO ioctl failed, errno=".toList ++
              fmt_d (os.sys_ioctl (os.sys_open dev O_RDONLY).fd SG_IO_REQUEST
                sg_io_hdr_request cdb (List.replicate BUF_SZ 0)).errno ++
              " (".toList ++
              (os.strerror (os.sys_ioctl (os.sys_open dev O_RDONLY).fd SG_IO_REQUEST
                sg_io_hdr_request cdb (List.replicate BUF_SZ 0)).errno).toList ++
              ")\n".toList) ],
        status := some EXIT_FAILURE } := by
  simp only [main, if_neg (not_lt.mpr hopen), if_pos hreq]

/-- The run of `main` without a device argument. -/
theorem main_of_missing_argument (os : OS) (argv : List String) (h : argv.length < 2) :
    main os argv =
      { trace := [.stderr "dev required\n".toList], status := some EXIT_FAILURE } := by
  match argv, h with
  | [], _ => rfl
  | [_], _ => rfl
  | _ :: _ :: _, h => exact absurd h (by simp)

/-- What `main` does after `close`, when `open` succeeded: the events that
follow the first three of the trace are writes and never calls. -/
theorem main_trace_of_open (os : OS) (prog dev : String) (rest : List String)
    (hopen : 0 ≤ (os.sys_open dev O_RDONLY).fd) :
    ∃ post, (main os (prog :: dev :: rest)).trace =
        [ .open_call dev O_RDONLY,
          .ioctl_call (os.sys_open dev O_RDONLY).fd SG_IO_REQUEST sg_io_hdr_request cdb
            (List.replicate BUF_SZ 0),
          .close_call (os.sys_open dev O_RDONLY).fd ] ++ post ∧
      ∀ e, e ∈ post →
        e.is_open_call = false ∧ e.is_ioctl_call = false ∧ e.is_close_call = false := by
  by_cases hreq : (os.sys_ioctl (os.sys_open dev O_RDONLY).fd SG_IO_REQUEST
      sg_io_hdr_request cdb (List.replicate BUF_SZ 0)).ret < 0
  · rw [main_of_request_failure os prog dev rest hopen hreq]
    refine ⟨[_], rfl, ?_⟩
    intro e he
    rw [List.mem_singleton] at he
    subst he
    exact ⟨rfl, rfl, rfl⟩
  · have hmap : ∀ (l : List (List Char)) (e : Event), e ∈ l.map Event.stdout →
        e.is_open_call = false ∧ e.is_ioctl_call = false ∧ e.is_close_call = false := by
      intro l e he
      obtain ⟨t, _, rfl⟩ := List.mem_map.mp he
      exact ⟨rfl, rfl, rfl⟩
    by_cases hstop : ∃ off, (walk (os.sys_ioctl (os.sys_open dev O_RDONLY).fd SG_IO_REQUEST
        sg_io_hdr_request cdb (List.replicate BUF_SZ 0)).buf).stop = .fault off
    · obtain ⟨off, hoff⟩ := hstop
      rw [main_of_success_fault os prog dev rest off hopen (not_lt.mp hreq) hoff]
      refine ⟨_, by simp only [List.cons_append, List.nil_append]; rfl, ?_⟩
      intro e he
      simp only [List.mem_cons, List.mem_append, List.mem_singleton, List.not_mem_nil,
        or_false] at he
      rcases he with rfl | he | rfl
      · exact ⟨rfl, rfl, rfl⟩
      · exact hmap _ e he
      · exact ⟨rfl, rfl, rfl⟩
    · rw [main_of_success os prog dev rest hopen (not_lt.mp hreq)
        (fun off hoff => hstop ⟨off, hoff⟩)]
      refine ⟨_, by simp only [List.cons_append, List.nil_append]; rfl, ?_⟩
      intro e he
      simp only [List.mem_cons, List.mem_append] at he
      rcases he with rfl | he | he
      · exact ⟨rfl, rfl, rfl⟩
      · exact hmap _ e he
      · exact hmap _ e he

/-- C12: in every run in which `open` succeeds the trace starts with the
`open`, the `SG_IO` request and one `close` of the descriptor `open`
returned, in this order, and what follows (the failure message, or the
table) holds no further call: the handle is closed exactly once, after the
request and before any table output, whether the request succeeds or fails.
In every run without a successful `open` (missing argument, or `open`
fails) `close` is called zero times. -/
theorem main_closes_handle_once (os : OS) (argv : List String) :
    (∀ prog dev rest, argv = prog :: dev :: rest →
      0 ≤ (os.sys_open dev O_RDONLY).fd →
      close_count (main os argv).trace = 1 ∧
      ∃ post, (main os argv).trace =
          [ .open_call dev O_RDONLY,
            .ioctl_call (os.sys_open dev O_RDONLY).fd SG_IO_REQUEST sg_io_hdr_request cdb
              (List.replicate BUF_SZ 0),
            .close_call (os.sys_open dev O_RDONLY).fd ] ++ post ∧
        ∀ e, e ∈ post →
          e.is_open_call = false ∧ e.is_ioctl_call = false ∧ e.is_close_call = false) ∧
    (argv.length < 2 → close_count (main os argv).trace = 0) ∧
    (∀ prog dev rest, argv = prog :: dev :: rest →
      (os.sys_open dev O_RDONLY).fd < 0 → close_count (main os argv).trace = 0) := by
  refine ⟨?_, ?_, ?_⟩
  · intro prog dev rest hargv hopen
    subst hargv
    obtain ⟨post, htrace, hpost⟩ := main_trace_of_open os prog dev rest hopen
    refine ⟨?_, post, htrace, hpost⟩
    have hzero : List.countP Event.is_close_call post = 0 :=
      List.countP_eq_zero.mpr (fun e he => by simp [(hpost e he).2.2])
    rw [htrace, close_count, List.countP_append, hzero]
    rfl
  · intro h
    rw [main_of_missing_argument os argv h]
    rfl
  · intro prog dev rest hargv hfail
    subst hargv
    simp only [main, if_pos hfail]
    rfl

/-- C12 at an environment in which the request fails. -/
theorem main_closes_handle_once_witness :
    close_count (main os_ioctl_fails ["tiny-smart", "/dev/sda"]).trace = 1 ∧
    ∃ post, (main os_ioctl_fails ["tiny-smart", "/dev/sda"]).trace =
        [ .open_call "/dev/sda" O_RDONLY,
          .ioctl_call (os_ioctl_fails.sys_open "/dev/sda" O_RDONLY).fd SG_IO_REQUEST
            sg_io_hdr_request cdb (List.replicate BUF_SZ 0),
          .close_call (os_ioctl_fails.sys_open "/dev/sda" O_RDONLY).fd ] ++ post ∧
      ∀ e, e ∈ post →
        e.is_open_call = false ∧ e.is_ioctl_call = false ∧ e.is_close_call = false :=
  (main_closes_handle_once os_ioctl_fails ["tiny-smart", "/dev/sda"]).1
    "tiny-smart" "/dev/sda" [] rfl (by decide)

/-- C14, the claim as written fails: besides the fields the claim lists, the
request that `main` passes to the `SG_IO` call has the sense-buffer pointer
`sbp` set (to `sbuf`), so it is not true that every other field is 0. -/
theorem request_sense_pointer_set :
    (main (os_returning sample_buf) ["tiny-smart", "/dev/sda"]).trace[1]? =
      some (.ioctl_call 3 SG_IO_REQUEST sg_io_hdr_request cdb (List.replicate 512 0)) ∧
    sg_io_hdr_request.sbp = .to_sbuf ∧
    sg_io_hdr_request.sbp ≠ .null ∧
    sg_io_hdr_request ≠
      { sg_io_hdr_zero with
        interface_id := ('S').toNat
        cmd_len := 12
        cmdp := .to_cdb
        mx_sb_len := 32
        dxfer_direction := SG_DXFER_FROM_DEV
        dxfer_len := 512
        dxferp := .to_buf
        timeout := 35000 } := by
  decide

/-- C14 (amended): in every run in which `open` succeeds, the second event is
the one `SG_IO` call of the run, on the descriptor `open` returned. Its
request has interface identifier 'S', command length 12 with the command
pointer at `cdb`, maximum sense-buffer length 32 with the sense-buffer pointer
at `sbuf`, transfer direction from-device, transfer length 512 with the data
pointer at `buf`, whose 512 bytes are all zero at the time of the call,
timeout 35000, and every other field of the descriptor equal to 0. -/
theorem main_request (os : OS) (prog dev : String) (rest : List String)
    (hopen : 0 ≤ (os.sys_open dev O_RDONLY).fd) :
    (∃ post, (main os (prog :: dev :: rest)).trace =
        [ .open_call dev O_RDONLY,
          .ioctl_call (os.sys_open dev O_RDONLY).fd SG_IO_REQUEST sg_io_hdr_request cdb
            (List.replicate BUF_SZ 0) ] ++ post ∧
      ∀ e, e ∈ post → e.is_ioctl_call = false) ∧
    sg_io_hdr_request =
      { interface_id := ('S').toNat
        dxfer_direction := SG_DXFER_FROM_DEV
        cmd_len := 12
        mx_sb_len := 32
        iovec_count := 0
        dxfer_len := 512
        dxferp := .to_buf
        cmdp := .to_cdb
        sbp := .to_sbuf
        timeout := 35000
        flags := 0
        pack_id := 0
        usr_ptr := .null
        status := 0
        masked_status := 0
        msg_status := 0
        sb_len_wr := 0
        host_status := 0
        driver_status := 0
        resid := 0
        duration := 0
        info := 0 } ∧
    cdb.length = 12 ∧ SENSE_BUF_SZ = 32 ∧
    (List.replicate BUF_SZ 0).length = 512 ∧
    (∀ b, b ∈ List.replicate BUF_SZ 0 → b = 0) := by
  obtain ⟨post, htrace, hpost⟩ := main_trace_of_open os prog dev rest hopen
  refine ⟨⟨.close_call (os.sys_open dev O_RDONLY).fd :: post, ?_, ?_⟩,
    by decide, by decide, by decide, by decide, ?_⟩
  · rw [htrace]; rfl
  · intro e he
    rcases List.mem_cons.mp he with rfl | he
    · rfl
    · exact (hpost e he).2.1
  · intro b hb
    exact (List.mem_replicate.mp hb).2

/-- The amended C14 at a run on the sample response. -/
theorem main_request_witness :
    ∃ post, (main (os_returning sample_buf) ["tiny-smart", "/dev/sda"]).trace =
        [ .open_call "/dev/sda" O_RDONLY,
          .ioctl_call ((os_returning sample_buf).sys_open "/dev/sda" O_RDONLY).fd
            SG_IO_REQUEST sg_io_hdr_request cdb (List.replicate BUF_SZ 0) ] ++ post ∧
      ∀ e, e ∈ post → e.is_ioctl_call = false :=
  (main_request (os_returning sample_buf) "tiny-smart" "/dev/sda" [] (by decide)).1

/-! ## Layout of the records -/

theorem load8_of_ge (buf : List Nat) (off : Nat) (h : buf.length ≤ off) :
    load8 buf off = .error off := by
  simp [load8, List.getElem?_eq_none h]

/-- A record loads only if its 12 bytes lie in the memory the list holds. -/
theorem rv_load_ok_in_bounds (buf : List Nat) (rv : Nat) (r : raw_value_t)
    (h : rv_load buf rv = .ok r) : rv + RAW_VALUE_SZ ≤ buf.length := by
  have hsize : RAW_VALUE_SZ = 12 := rfl
  rw [hsize]
  by_contra hlt
  have hthr : load8 buf (rv + OFF_THRESHOLD) = .error (rv + OFF_THRESHOLD) :=
    load8_of_ge buf _ (by simp only [OFF_THRESHOLD]; omega)
  unfold rv_load at h
  rw [hthr] at h
  repeat' split at h
  all_goals first
    | exact Except.noConfusion h
    | (rename_i hbad; exact Except.noConfusion hbad)

/-- Row `i` of the rows written from offset `rv` on is the rendering of the
record loaded at offset `rv + 12 * i`. -/
theorem walk_from_row (buf : List Nat) :
    ∀ (fuel rv i : Nat) (row : List Char),
      (walk_from buf fuel rv).rows[i]? = some row →
      ∃ r, rv_load buf (rv + RAW_VALUE_SZ * i) = .ok r ∧ row = print_row r := by
  intro fuel
  induction fuel with
  | zero => intro rv i row h; simp [walk_from] at h
  | succ fuel ih =>
    intro rv i row h
    unfold walk_from at h
    by_cases hlt : rv < BUF_SZ
    · rw [if_pos hlt] at h
      cases hid : load8 buf (rv + OFF_ATTR_ID) with
      | error e => rw [hid] at h; simp at h
      | ok id =>
        rw [hid] at h
        by_cases hz : id = 0
        · simp [hz] at h
        · cases hr : rv_load buf rv with
          | error e => rw [hr] at h; simp [hz] at h
          | ok r =>
            rw [hr] at h
            simp only [hz, ne_eq, not_false_eq_true, if_true] at h
            cases i with
            | zero =>
              simp only [List.getElem?_cons_zero, Option.some.injEq] at h
              exact ⟨r, by simpa using hr, h.symm⟩
            | succ i =>
              simp only [List.getElem?_cons_succ] at h
              obtain ⟨r', hr', hrow⟩ := ih (rv + RAW_VALUE_SZ) i row h
              refine ⟨r', ?_, hrow⟩
              rwa [show rv + RAW_VALUE_SZ * (i + 1) = rv + RAW_VALUE_SZ + RAW_VALUE_SZ * i by
                ring]
    · rw [if_neg hlt] at h; simp at h

/-- The auxiliary member `attr_data` is not an argument of the `printf`. -/
theorem print_row_attr_data (r : raw_value_t) (x : Nat) :
    print_row { r with attr_data := x } = print_row r := rfl

/-- The loop looks at the memory from offset 2 on only. -/
theorem walk_from_congr (buf buf' : List Nat)
    (h : ∀ k, 2 ≤ k → buf[k]? = buf'[k]?) :
    ∀ (fuel rv : Nat), 2 ≤ rv → walk_from buf fuel rv = walk_from buf' fuel rv := by
  have h8 : ∀ k, 2 ≤ k → load8 buf k = load8 buf' k := by
    intro k hk
    simp only [load8, h k hk]
  have h16 : ∀ k, 2 ≤ k → load16 buf k = load16 buf' k := by
    intro k hk
    simp only [load16, h8 k hk, h8 (k + 1) (by omega)]
  have h32 : ∀ k, 2 ≤ k → load32 buf k = load32 buf' k := by
    intro k hk
    simp only [load32, h16 k hk, h16 (k + 2) (by omega)]
  have hrv : ∀ k, 2 ≤ k → rv_load buf k = rv_load buf' k := by
    intro k hk
    simp only [rv_load, h8 (k + OFF_ATTR_ID) (by omega), h16 (k + OFF_ATTR_FLAGS) (by omega),
      h8 (k + OFF_CURRENT_VALUE) (by omega), h8 (k + OFF_WORST_VALUE) (by omega),
      h32 (k + OFF_DATA) (by omega), h8 (k + OFF_THRESHOLD) (by omega)]
  intro fuel
  induction fuel with
  | zero => intro rv _; rfl
  | succ fuel ih =>
    intro rv hk
    simp only [walk_from, h8 (rv + OFF_ATTR_ID) (by omega), hrv rv hk,
      ih (rv + RAW_VALUE_SZ) (by omega)]

/-- C15: records are packed, 12 bytes each (the sum of the field widths
8+16+8+8+32+16+8 bits). For every buffer and every row index `i`, row `i` of
the walk is decoded from the 12 bytes starting at offset `2 + 12 * i`, all
of which the buffer holds: attribute ID at byte +0, flags at +1..+2, current
value at +3, worst value at +4, raw data at +5..+8, auxiliary data at
+9..+10 (not shown) and threshold at +11, multi-byte fields little-endian.
The first 2 bytes of the buffer never influence the rows nor the run. -/
theorem walk_row_layout (buf : List Nat) (i : Nat) (row : List Char)
    (hrow : (walk buf).rows[i]? = some row) :
    RAW_VALUE_SZ * 8 = 8 + 16 + 8 + 8 + 32 + 16 + 8 ∧ RAW_VALUE_SZ = 12 ∧
    2 + 12 * i + 12 ≤ buf.length ∧
    row = print_row
      { attr_id := buf.getD (2 + 12 * i) 0
        attr_flags := buf.getD (2 + 12 * i + 1) 0 + 256 * buf.getD (2 + 12 * i + 2) 0
        current_value := buf.getD (2 + 12 * i + 3) 0
        worst_value := buf.getD (2 + 12 * i + 4) 0
        data := buf.getD (2 + 12 * i + 5) 0 + 256 * buf.getD (2 + 12 * i + 6) 0 +
          65536 * buf.getD (2 + 12 * i + 7) 0 + 16777216 * buf.getD (2 + 12 * i + 8) 0
        attr_data := buf.getD (2 + 12 * i + 9) 0 + 256 * buf.getD (2 + 12 * i + 10) 0
        threshold := buf.getD (2 + 12 * i + 11) 0 } ∧
    (∀ (a b a' b' : Nat) (rest : List Nat),
      walk (a :: b :: rest) = walk (a' :: b' :: rest) ∧
      ∀ argv, main (os_returning (a :: b :: rest)) argv =
        main (os_returning (a' :: b' :: rest)) argv) := by
  have hsize : RAW_VALUE_SZ = 12 := rfl
  obtain ⟨r, hr, hprint⟩ := walk_from_row buf BUF_SZ 2 i row hrow
  have hin := rv_load_ok_in_bounds buf _ r hr
  rw [rv_load_of_le buf _ hin] at hr
  rw [hsize] at hr hin
  have hwalk : ∀ (a b a' b' : Nat) (rest : List Nat),
      walk (a :: b :: rest) = walk (a' :: b' :: rest) := by
    intro a b a' b' rest
    refine walk_from_congr _ _ ?_ BUF_SZ 2 (Nat.le_refl 2)
    intro k hk
    obtain ⟨k, rfl⟩ : ∃ j, k = j + 2 := ⟨k - 2, by omega⟩
    simp
  refine ⟨by decide, hsize, hin, ?_, fun a b a' b' rest => ⟨hwalk a b a' b' rest, ?_⟩⟩
  · rw [hprint, ← Except.ok.inj hr, ← print_row_attr_data _
      (buf.getD (2 + 12 * i + 9) 0 + 256 * buf.getD (2 + 12 * i + 10) 0)]
    congr 2
    ring
  · intro argv
    match argv with
    | [] => rfl
    | [_] => rfl
    | _ :: _ :: _ =>
      simp only [main, os_returning, hwalk a b a' b' rest]

/-- C15 at the sample response, row 0. -/
theorem walk_row_layout_witness :
    2 + 12 * 0 + 12 ≤ sample_buf.length ∧
    "c2 Temperature                      22  o   s  3c  28          35   0\n".toList =
      print_row
        { attr_id := sample_buf.getD (2 + 12 * 0) 0
          attr_flags := sample_buf.getD (2 + 12 * 0 + 1) 0 +
            256 * sample_buf.getD (2 + 12 * 0 + 2) 0
          current_value := sample_buf.getD (2 + 12 * 0 + 3) 0
          worst_value := sample_buf.getD (2 + 12 * 0 + 4) 0
          data := sample_buf.getD (2 + 12 * 0 + 5) 0 +
            256 * sample_buf.getD (2 + 12 * 0 + 6) 0 +
            65536 * sample_buf.getD (2 + 12 * 0 + 7) 0 +
            16777216 * sample_buf.getD (2 + 12 * 0 + 8) 0
          attr_data := sample_buf.getD (2 + 12 * 0 + 9) 0 +
            256 * sample_buf.getD (2 + 12 * 0 + 10) 0
          threshold := sample_buf.getD (2 + 12 * 0 + 11) 0 } :=
  have h := walk_row_layout sample_buf 0
    "c2 Temperature                      22  o   s  3c  28          35   0\n".toList
    (by decide)
  ⟨h.2.2.1, h.2.2.2.1⟩

/-! ## The columns of a row -/

theorem drop_take_mid (pre mid post : List Char) (n m : Nat)
    (hpre : pre.length = n) (hmid : mid.length = m) :
    ((pre ++ (mid ++ post)).drop n).take m = mid := by
  rw [List.drop_left' hpre, List.take_left' hmid]

theorem fmt_u_eleven_length (n : Nat) (h : n < 4294967296) : (fmt_u 11 n).length = 11 :=
  pad_left_length 11 _
    (toDigits_length_le 10 n 11 (by decide) (by decide) (by omega))

/-- Where each argument of the `printf` of the loop body lands in the row,
for members in the range of their C types: columns 0..1 the ID, 3..32 the
name, 34..37 the flags, 39..44 the flag letters, 47..48 the current value,
51..52 the worst value, 54..64 the data, 67..68 the threshold, 69 the
newline. -/
theorem print_row_columns (rv : raw_value_t) (h : rv.in_range) :
    (print_row rv).take 2 = fmt_x 2 rv.attr_id ∧
    ((print_row rv).drop 3).take 30 = fmt_s_left_prec 30 30 (attr_name rv.attr_id) ∧
    ((print_row rv).drop 34).take 4 = fmt_x 4 rv.attr_flags ∧
    ((print_row rv).drop 39).take 6 = flag_chars rv.attr_flags ∧
    ((print_row rv).drop 47).take 2 = fmt_x 2 rv.current_value ∧
    ((print_row rv).drop 51).take 2 = fmt_x 2 rv.worst_value ∧
    ((print_row rv).drop 54).take 11 = fmt_u 11 rv.data ∧
    ((print_row rv).drop 67).take 2 = fmt_x 2 rv.threshold ∧
    (print_row rv).drop 69 = ['\n'] ∧
    (print_row rv).length = 70 := by
  obtain ⟨hid, hfl, hcur, hwor, hdata, _, hthr⟩ := h
  have l1 := fmt_x_two_length _ hid
  have l2 := fmt_s_left_prec_length 30 (attr_name rv.attr_id)
  have l3 := fmt_x_four_length _ hfl
  have l4 : (flag_chars rv.attr_flags).length = 6 := rfl
  have l5 := fmt_x_two_length _ hcur
  have l6 := fmt_x_two_length _ hwor
  have l7 := fmt_u_eleven_length _ hdata
  have l8 := fmt_x_two_length _ hthr
  refine ⟨?_, print_row_name_column rv hid, ?_, print_row_flag_column rv hid hfl,
    ?_, ?_, ?_, ?_, ?_, ?_⟩
  · have e : print_row rv = fmt_x 2 rv.attr_id ++ ([' '] ++
        fmt_s_left_prec 30 30 (attr_name rv.attr_id) ++ [' '] ++
        fmt_x 4 rv.attr_flags ++ [' '] ++ flag_chars rv.attr_flags ++ [' ', ' '] ++
        fmt_x 2 rv.current_value ++ [' ', ' '] ++ fmt_x 2 rv.worst_value ++ [' '] ++
        fmt_u 11 rv.data ++ [' ', ' '] ++ fmt_x 2 rv.threshold ++ ['\n']) := by
      simp only [print_row, List.append_assoc]
    rw [e, List.take_left' l1]
  · have e : print_row rv = (fmt_x 2 rv.attr_id ++ [' '] ++
        fmt_s_left_prec 30 30 (attr_name rv.attr_id) ++ [' ']) ++
        (fmt_x 4 rv.attr_flags ++ ([' '] ++ flag_chars rv.attr_flags ++ [' ', ' '] ++
        fmt_x 2 rv.current_value ++ [' ', ' '] ++ fmt_x 2 rv.worst_value ++ [' '] ++
        fmt_u 11 rv.data ++ [' ', ' '] ++ fmt_x 2 rv.threshold ++ ['\n'])) := by
      simp only [print_row, List.append_assoc]
    rw [e]
    exact drop_take_mid _ _ _ 34 4 (by simp [l1, l2]) l3
  · have e : print_row rv = (fmt_x 2 rv.attr_id ++ [' '] ++
        fmt_s_left_prec 30 30 (attr_name rv.attr_id) ++ [' '] ++
        fmt_x 4 rv.attr_flags ++ [' '] ++ flag_chars rv.attr_flags ++ [' ', ' ']) ++
        (fmt_x 2 rv.current_value ++ ([' ', ' '] ++ fmt_x 2 rv.worst_value ++ [' '] ++
        fmt_u 11 rv.data ++ [' ', ' '] ++ fmt_x 2 rv.threshold ++ ['\n'])) := by
      simp only [print_row, List.append_assoc]
    rw [e]
    exact drop_take_mid _ _ _ 47 2 (by simp [l1, l2, l3, l4]) l5
  · have e : print_row rv = (fmt_x 2 rv.attr_id ++ [' '] ++
        fmt_s_left_prec 30 30 (attr_name rv.attr_id) ++ [' '] ++
        fmt_x 4 rv.attr_flags ++ [' '] ++ flag_chars rv.attr_flags ++ [' ', ' '] ++
        fmt_x 2 rv.current_value ++ [' ', ' ']) ++
        (fmt_x 2 rv.worst_value ++ ([' '] ++
        fmt_u 11 rv.data ++ [' ', ' '] ++ fmt_x 2 rv.threshold ++ ['\n'])) := by
      simp only [print_row, List.append_assoc]
    rw [e]
    exact drop_take_mid _ _ _ 51 2 (by simp [l1, l2, l3, l4, l5]) l6
  · have e : print_row rv = (fmt_x 2 rv.attr_id ++ [' '] ++
        fmt_s_left_prec 30 30 (attr_name rv.attr_id) ++ [' '] ++
        fmt_x 4 rv.attr_flags ++ [' '] ++ flag_chars rv.attr_flags ++ [' ', ' '] ++
        fmt_x 2 rv.current_value ++ [' ', ' '] ++ fmt_x 2 rv.worst_value ++ [' ']) ++
        (fmt_u 11 rv.data ++ ([' ', ' '] ++ fmt_x 2 rv.threshold ++ ['\n'])) := by
      simp only [print_row, List.append_assoc]
    rw [e]
    exact drop_take_mid _ _ _ 54 11 (by simp [l1, l2, l3, l4, l5, l6]) l7
  · have e : print_row rv = (fmt_x 2 rv.attr_id ++ [' '] ++
        fmt_s_left_prec 30 30 (attr_name rv.attr_id) ++ [' '] ++
        fmt_x 4 rv.attr_flags ++ [' '] ++ flag_chars rv.attr_flags ++ [' ', ' '] ++
        fmt_x 2 rv.current_value ++ [' ', ' '] ++ fmt_x 2 rv.worst_value ++ [' '] ++
        fmt_u 11 rv.data ++ [' ', ' ']) ++
        (fmt_x 2 rv.threshold ++ ['\n']) := by
      simp only [print_row, List.append_assoc]
    rw [e]
    exact drop_take_mid _ _ _ 67 2 (by simp [l1, l2, l3, l4, l5, l6, l7]) l8
  · have e : print_row rv = (fmt_x 2 rv.attr_id ++ [' '] ++
        fmt_s_left_prec 30 30 (attr_name rv.attr_id) ++ [' '] ++
        fmt_x 4 rv.attr_flags ++ [' '] ++ flag_chars rv.attr_flags ++ [' ', ' '] ++
        fmt_x 2 rv.current_value ++ [' ', ' '] ++ fmt_x 2 rv.worst_value ++ [' '] ++
        fmt_u 11 rv.data ++ [' ', ' '] ++ fmt_x 2 rv.threshold) ++ ['\n'] := by
      simp only [print_row, List.append_assoc]
    rw [e]
    exact List.drop_left' (by simp [l1, l2, l3, l4, l5, l6, l7, l8])
  · simp [print_row, l1, l2, l3, l4, l5, l6, l7, l8]

/-- C16: for every rendered record (8-bit ID), the name column of its row,
the 30 characters from column 3, is the looked-up name (the entry of
`id_str`, or "?" when there is none) cut to its first 30 characters and
padded on the right with spaces to exactly 30 characters. Only the entries
of the IDs 0xb3, 0xb4 and 0xc6 are longer than 30 characters, and their rows
show the first 30 characters of the name. -/
theorem print_row_name_width (rv : raw_value_t) (hid : rv.attr_id < 256) :
    (((print_row rv).drop 3).take 30).length = 30 ∧
    ((print_row rv).drop 3).take 30 =
      (attr_name rv.attr_id).toList.take 30 ++
        List.replicate (30 - ((attr_name rv.attr_id).toList.take 30).length) ' ' ∧
    (∀ name, id_str rv.attr_id = some name → attr_name rv.attr_id = name) ∧
    (id_str rv.attr_id = none → attr_name rv.attr_id = "?") ∧
    (30 < (attr_name rv.attr_id).length ↔
      rv.attr_id = 0xb3 ∨ rv.attr_id = 0xb4 ∨ rv.attr_id = 0xc6) ∧
    (rv.attr_id = 0xb3 →
      ((print_row rv).drop 3).take 30 = "Used Reserved Block Count Tota".toList) ∧
    (rv.attr_id = 0xb4 →
      ((print_row rv).drop 3).take 30 = "Unused Reserved Block Count To".toList) ∧
    (rv.attr_id = 0xc6 →
      ((print_row rv).drop 3).take 30 = "(Offline) Uncorrectable Sector".toList) := by
  have hcol := print_row_name_column rv hid
  have hlong : ∀ id, id < 256 →
      (30 < (attr_name id).length ↔ id = 0xb3 ∨ id = 0xb4 ∨ id = 0xc6) := by
    decide
  refine ⟨?_, ?_, ?_, ?_, hlong _ hid, ?_, ?_, ?_⟩
  · rw [hcol]; exact fmt_s_left_prec_length 30 _
  · rw [hcol]; rfl
  · intro name hname
    simp only [attr_name, hname]
  · intro hnone
    simp only [attr_name, hnone]
  · intro h
    rw [hcol, h]
    decide
  · intro h
    rw [hcol, h]
    decide
  · intro h
    rw [hcol, h]
    decide

/-- C16 at a record with ID 0xb3. -/
theorem print_row_name_width_witness :
    (((print_row ⟨0xb3, 0, 100, 100, 0, 0, 0⟩).drop 3).take 30).length = 30 ∧
    ((print_row ⟨0xb3, 0, 100, 100, 0, 0, 0⟩).drop 3).take 30 =
      "Used Reserved Block Count Tota".toList :=
  have h := print_row_name_width ⟨0xb3, 0, 100, 100, 0, 0, 0⟩ (by decide)
  ⟨h.1, h.2.2.2.2.2.1 rfl⟩

/-- C17: the table is fixed-width. For every record whose members are in
the range of their C types (8-bit ID, current, worst and threshold values,
16-bit flags, 32-bit data printed in decimal) the row has the length of the
header row, 69 characters and the newline, and the fields ID, name, Flgs,
Flags, Cur, Wor, Data, Thr stand in this order and end at the same columns
as in the header row: 2, 33, 38, 45, 49, 53, 65 and 69. -/
theorem print_row_fixed_width (rv : raw_value_t) (h : rv.in_range) :
    (print_row rv).length = header_row.length ∧ header_row.length = 69 + 1 ∧
    ((print_row rv).take 2 = fmt_x 2 rv.attr_id ∧ (fmt_x 2 rv.attr_id).length = 2 ∧
      header_row.take 2 = "ID".toList) ∧
    (((print_row rv).drop 3).take 30 = fmt_s_left_prec 30 30 (attr_name rv.attr_id) ∧
      (fmt_s_left_prec 30 30 (attr_name rv.attr_id)).length = 30 ∧
      (header_row.drop 3).take 30 = "Attribute".toList ++ List.replicate 21 ' ') ∧
    (((print_row rv).drop 34).take 4 = fmt_x 4 rv.attr_flags ∧
      (fmt_x 4 rv.attr_flags).length = 4 ∧
      (header_row.drop 34).take 4 = "Flgs".toList) ∧
    (((print_row rv).drop 39).take 6 = flag_chars rv.attr_flags ∧
      (flag_chars rv.attr_flags).length = 6 ∧
      (header_row.drop 39).take 6 = " Flags".toList) ∧
    (((print_row rv).drop 47).take 2 = fmt_x 2 rv.current_value ∧
      (fmt_x 2 rv.current_value).length = 2 ∧
      (header_row.drop 46).take 3 = "Cur".toList) ∧
    (((print_row rv).drop 51).take 2 = fmt_x 2 rv.worst_value ∧
      (fmt_x 2 rv.worst_value).length = 2 ∧
      (header_row.drop 50).take 3 = "Wor".toList) ∧
    (((print_row rv).drop 54).take 11 = fmt_u 11 rv.data ∧
      (fmt_u 11 rv.data).length = 11 ∧
      (header_row.drop 54).take 11 = "       Data".toList) ∧
    (((print_row rv).drop 67).take 2 = fmt_x 2 rv.threshold ∧
      (fmt_x 2 rv.threshold).length = 2 ∧
      (header_row.drop 66).take 3 = "Thr".toList) ∧
    (print_row rv).drop 69 = ['\n'] ∧ header_row.drop 69 = ['\n'] := by
  obtain ⟨c1, c2, c3, c4, c5, c6, c7, c8, c9, c10⟩ := print_row_columns rv h
  obtain ⟨hid, hfl, hcur, hwor, hdata, _, hthr⟩ := h
  exact ⟨by rw [c10]; decide, by decide,
    ⟨c1, fmt_x_two_length _ hid, by decide⟩,
    ⟨c2, fmt_s_left_prec_length 30 _, by decide⟩,
    ⟨c3, fmt_x_four_length _ hfl, by decide⟩,
    ⟨c4, rfl, by decide⟩,
    ⟨c5, fmt_x_two_length _ hcur, by decide⟩,
    ⟨c6, fmt_x_two_length _ hwor, by decide⟩,
    ⟨c7, fmt_u_eleven_length _ hdata, by decide⟩,
    ⟨c8, fmt_x_two_length _ hthr, by decide⟩,
    c9, by decide⟩

/-- C17 at a record with the largest values of every member. -/
theorem print_row_fixed_width_witness :
    (print_row ⟨0xff, 0xffff, 0xff, 0xff, 4294967295, 0xffff, 0xff⟩).length =
      header_row.length ∧
    header_row.length = 69 + 1 :=
  have h := print_row_fixed_width ⟨0xff, 0xffff, 0xff, 0xff, 4294967295, 0xffff, 0xff⟩
    (by unfold raw_value_t.in_range; decide)
  ⟨h.1, h.2.1⟩

/-! ## How many rows the walk writes -/

/-- The rows written from slot `j` on are as many as the leading slots from
`j` on whose ID byte is not 0, and the loop ends at a zero ID or at the end
of the buffer. The memory must hold the array; it must hold the 6 bytes
after it only when all 43 ID bytes are non-zero. -/
theorem walk_from_count (mem : List Nat) (hlen : BUF_SZ ≤ mem.length)
    (hfull : (∀ k, k < 43 → (mem.getD (2 + RAW_VALUE_SZ * k) 0 != 0) = true) →
      BUF_SZ + 6 ≤ mem.length) :
    ∀ (n j fuel : Nat), j + n = 43 → n < fuel →
      (∀ k, k < j → (mem.getD (2 + RAW_VALUE_SZ * k) 0 != 0) = true) →
      (walk_from mem fuel (2 + RAW_VALUE_SZ * j)).rows.length =
        ((List.range' j n).takeWhile
          (fun k => mem.getD (2 + RAW_VALUE_SZ * k) 0 != 0)).length ∧
      ((walk_from mem fuel (2 + RAW_VALUE_SZ * j)).stop = .sentinel ∨
        (walk_from mem fuel (2 + RAW_VALUE_SZ * j)).stop = .buf_end) := by
  have hsize : RAW_VALUE_SZ = 12 := rfl
  have hbuf : BUF_SZ = 512 := rfl
  rw [hbuf] at hlen
  intro n
  induction n with
  | zero =>
    intro j fuel hj hfuel _
    obtain ⟨fuel, rfl⟩ : ∃ f, fuel = f + 1 := ⟨fuel - 1, by omega⟩
    have hge : ¬ 2 + RAW_VALUE_SZ * j < BUF_SZ := by rw [hsize, hbuf]; omega
    simp [walk_from, hge]
  | succ n ih =>
    intro j fuel hj hfuel hprev
    obtain ⟨fuel, rfl⟩ : ∃ f, fuel = f + 1 := ⟨fuel - 1, by omega⟩
    have hlt : 2 + RAW_VALUE_SZ * j < BUF_SZ := by rw [hsize, hbuf]; omega
    have hid : load8 mem (2 + RAW_VALUE_SZ * j + OFF_ATTR_ID) =
        .ok (mem.getD (2 + RAW_VALUE_SZ * j) 0) :=
      load8_of_lt mem (2 + RAW_VALUE_SZ * j) (by rw [hsize]; omega)
    rw [List.range'_succ]
    unfold walk_from
    rw [if_pos hlt]
    simp only [hid]
    by_cases hz : mem.getD (2 + RAW_VALUE_SZ * j) 0 = 0
    · rw [if_neg (not_not.mpr hz)]
      have hp : (mem.getD (2 + RAW_VALUE_SZ * j) 0 != 0) = false := by rw [hz]; rfl
      simp only [List.takeWhile_cons, hp, Bool.false_eq_true, if_false]
      simp
    · have hp : (mem.getD (2 + RAW_VALUE_SZ * j) 0 != 0) = true := bne_iff_ne.mpr hz
      have hprev' : ∀ k, k < j + 1 → (mem.getD (2 + RAW_VALUE_SZ * k) 0 != 0) = true := by
        intro k hk
        rcases Nat.lt_succ_iff_lt_or_eq.mp hk with h | h
        · exact hprev k h
        · rw [h]; exact hp
      have hin : 2 + RAW_VALUE_SZ * j + RAW_VALUE_SZ ≤ mem.length := by
        by_cases hlast : j = 42
        · have h518 := hfull (fun k hk => hprev' k (by omega))
          rw [hbuf] at h518
          rw [hsize]; omega
        · rw [hsize]; omega
      rw [if_pos hz, rv_load_of_le mem _ hin]
      simp only [List.takeWhile_cons, hp, if_true]
      have hnext : 2 + RAW_VALUE_SZ * j + RAW_VALUE_SZ = 2 + RAW_VALUE_SZ * (j + 1) := by ring
      obtain ⟨hrows, hstop⟩ := ih (j + 1) fuel (by omega) (by omega) hprev'
      simp only [hnext, List.length_cons, hrows]
      exact ⟨trivial, hstop⟩

/-- When all 43 ID bytes are non-zero, all 43 slots are leading slots. -/
theorem leading_slots_of_all (mem : List Nat)
    (h : ∀ k, k < 43 → (mem.getD (2 + RAW_VALUE_SZ * k) 0 != 0) = true) :
    leading_slots mem = 43 := by
  have hslots : NUM_SLOTS = 43 := by decide
  rw [leading_slots, hslots, List.takeWhile_eq_self_iff.mpr]
  · simp
  · intro k hk
    exact h k (List.mem_range.mp hk)

/-- The leading slots are at most 43. -/
theorem leading_slots_le (mem : List Nat) : leading_slots mem ≤ 43 := by
  have hslots : NUM_SLOTS = 43 := by decide
  rw [leading_slots, hslots]
  exact ((List.takeWhile_sublist _).length_le).trans (by simp)

/-- The ID bytes, and so the leading slots, are those of the first 512
bytes. -/
theorem leading_slots_append (buf tail : List Nat) (hlen : buf.length = BUF_SZ) :
    leading_slots (buf ++ tail) = leading_slots buf := by
  have hsize : RAW_VALUE_SZ = 12 := rfl
  have hbuf : BUF_SZ = 512 := rfl
  have hslots : NUM_SLOTS = 43 := by decide
  rw [hbuf] at hlen
  have hpred : ∀ k, k ∈ List.range 43 →
      ((buf ++ tail).getD (2 + RAW_VALUE_SZ * k) 0 != 0) =
        (buf.getD (2 + RAW_VALUE_SZ * k) 0 != 0) := by
    intro k hk
    have hk' : k < 43 := List.mem_range.mp hk
    rw [List.getD_append buf tail 0 _ (by rw [hlen, hsize]; omega)]
  rw [leading_slots, leading_slots, hslots]
  generalize List.range 43 = l at hpred
  induction l with
  | nil => rfl
  | cons a l ih =>
    rw [List.takeWhile_cons, List.takeWhile_cons, hpred a (List.mem_cons_self a l)]
    split
    · rw [List.length_cons, List.length_cons,
        ih (fun k hk => hpred k (List.mem_cons_of_mem a hk))]
    · rfl

/-- The loop of `main` writes as many rows as there are leading slots with a
non-zero ID byte and ends at a zero ID or at the end of the buffer, when the
memory holds the array and, in case all 43 ID bytes are non-zero, the 6
bytes after it. -/
theorem walk_count (mem : List Nat) (hlen : BUF_SZ ≤ mem.length)
    (hfull : leading_slots mem = 43 → BUF_SZ + 6 ≤ mem.length) :
    (walk mem).rows.length = leading_slots mem ∧
    ((walk mem).stop = .sentinel ∨ (walk mem).stop = .buf_end) := by
  have hslots : NUM_SLOTS = 43 := by decide
  have hbuf : BUF_SZ = 512 := rfl
  have h := walk_from_count mem hlen (fun hall => hfull (leading_slots_of_all mem hall))
    43 0 BUF_SZ (by omega) (by rw [hbuf]; omega) (fun k hk => absurd hk (Nat.not_lt_zero k))
  have hwalk : walk mem = walk_from mem BUF_SZ (2 + RAW_VALUE_SZ * 0) := rfl
  rw [← hwalk, ← List.range_eq_range', ← hslots] at h
  exact h

/-- C18: the walk trusts the drive to end the list. For every 512-byte
buffer `buf`, followed in memory by the bytes `tail` (which need to be
readable, 6 of them, only when no slot has a zero ID), the number of rows is
the number of leading record slots (slot `k` at offset `2 + 12 * k`, for the
43 offsets below 512) whose ID byte is not 0; the walk ends at a zero ID or
at the end of the buffer, with at most 43 rows. When all 43 ID bytes are
non-zero, as in the buffer of all ones, the last slot, at offset 506, of
which only 6 bytes lie inside the buffer, is read and rendered as row 42
like a whole record: its data comes from byte 511 and the 3 bytes after the
buffer, its threshold from the 6th byte after the buffer. -/
theorem walk_rows_count (buf tail : List Nat) (hlen : buf.length = BUF_SZ)
    (htail : leading_slots buf = 43 → 6 ≤ tail.length) :
    NUM_SLOTS = 43 ∧ (∀ k, 2 + RAW_VALUE_SZ * k < BUF_SZ ↔ k < NUM_SLOTS) ∧
    (walk (buf ++ tail)).rows.length = leading_slots buf ∧
    (walk (buf ++ tail)).rows.length ≤ 43 ∧
    ((walk (buf ++ tail)).stop = .sentinel ∨ (walk (buf ++ tail)).stop = .buf_end) ∧
    (leading_slots buf = 43 →
      BUF_SZ - 506 = 6 ∧
      (walk (buf ++ tail)).rows[42]? = some (print_row
        { attr_id := buf.getD 506 0
          attr_flags := buf.getD 507 0 + 256 * buf.getD 508 0
          current_value := buf.getD 509 0
          worst_value := buf.getD 510 0
          data := buf.getD 511 0 + 256 * tail.getD 0 0 + 65536 * tail.getD 1 0 +
            16777216 * tail.getD 2 0
          attr_data := 0
          threshold := tail.getD 5 0 })) ∧
    leading_slots ones_buf = 43 := by
  have hsize : RAW_VALUE_SZ = 12 := rfl
  have hbuf : BUF_SZ = 512 := rfl
  have hslots : NUM_SLOTS = 43 := by decide
  have happ := leading_slots_append buf tail hlen
  rw [hbuf] at hlen
  have hget : ∀ o, o < 512 → (buf ++ tail).getD o 0 = buf.getD o 0 :=
    fun o ho => List.getD_append buf tail 0 o (by rw [hlen]; exact ho)
  obtain ⟨hrows, hstop⟩ := walk_count (buf ++ tail)
    (by rw [hbuf, List.length_append, hlen]; omega)
    (by
      intro h
      rw [happ] at h
      have := htail h
      rw [hbuf, List.length_append, hlen]; omega)
  rw [happ] at hrows
  refine ⟨hslots, ?_, hrows, by rw [hrows]; exact leading_slots_le buf, hstop, ?_, by decide⟩
  · intro k
    rw [hslots, hsize, hbuf]; omega
  · intro hfull
    have h6 := htail hfull
    refine ⟨by decide, ?_⟩
    have hlt : 42 < (walk (buf ++ tail)).rows.length := by rw [hrows, hfull]; omega
    obtain ⟨r, hr, hrow⟩ := walk_from_row (buf ++ tail) BUF_SZ 2 42 _
      (List.getElem?_eq_getElem hlt)
    have hin : 2 + RAW_VALUE_SZ * 42 + RAW_VALUE_SZ ≤ (buf ++ tail).length := by
      rw [hsize, List.length_append, hlen]; omega
    rw [rv_load_of_le _ _ hin] at hr
    rw [List.getElem?_eq_getElem hlt, hrow, ← Except.ok.inj hr]
    have hout : ∀ o, (buf ++ tail).getD (512 + o) 0 = tail.getD o 0 := by
      intro o
      rw [List.getD_append_right buf tail 0 (512 + o) (by rw [hlen]; omega), hlen]
      congr 1
      omega
    have e506 : 2 + RAW_VALUE_SZ * 42 = 506 := by decide
    rw [e506, hget 506 (by omega), hget 507 (by omega), hget 508 (by omega),
      hget 509 (by omega), hget 510 (by omega), hget 511 (by omega)]
    have h512 := hout 0
    have h513 := hout 1
    have h514 := hout 2
    have h517 := hout 5
    simp only [Nat.add_zero] at h512
    rw [show 506 + 6 = 512 from rfl, show 506 + 7 = 513 from rfl,
      show 506 + 8 = 514 from rfl, show 506 + 11 = 517 from rfl,
      h512, show (513 : Nat) = 512 + 1 from rfl, h513, show (514 : Nat) = 512 + 2 from rfl,
      h514, show (517 : Nat) = 512 + 5 from rfl, h517]
    congr 3
    ring

/-- C18 at the buffer of all ones followed by the bytes 7, 0, 0, 9, 9, 5:
43 rows, the last one rendered from the partial slot. -/
theorem walk_rows_count_witness :
    (walk (ones_buf ++ [7, 0, 0, 9, 9, 5])).rows.length = leading_slots ones_buf ∧
    leading_slots ones_buf = 43 ∧
    (walk (ones_buf ++ [7, 0, 0, 9, 9, 5])).rows[42]? =
      some (print_row ⟨1, 257, 1, 1, 1 + 256 * 7, 0, 5⟩) :=
  have h := walk_rows_count ones_buf [7, 0, 0, 9, 9, 5] (by decide) (fun _ => by decide)
  ⟨h.2.2.1, h.2.2.2.2.2.2, (h.2.2.2.2.2.1 h.2.2.2.2.2.2).2⟩

/-! ## The exit status -/

/-- The exit status of `main` in the environments in which a successful
request leaves the 512 bytes of `buf` readable and, in the one case in which
the loop reads on past them (all 43 ID bytes non-zero), also the 6 bytes
that follow the array in memory: there the status is 0 if and only if a
device argument is given, `open` succeeds and the request succeeds; it is
the non-zero `EXIT_FAILURE` when the argument is missing (and then `open` is
not called), when `open` fails and when the request fails, and in these
three cases nothing is written to standard output. -/
theorem main_exit_status_of_readable_memory (os : OS) (argv : List String)
    (hmem : ∀ dev, 0 ≤ (os.sys_ioctl (os.sys_open dev O_RDONLY).fd SG_IO_REQUEST
        sg_io_hdr_request cdb (List.replicate BUF_SZ 0)).ret →
      BUF_SZ ≤ (os.sys_ioctl (os.sys_open dev O_RDONLY).fd SG_IO_REQUEST
        sg_io_hdr_request cdb (List.replicate BUF_SZ 0)).buf.length ∧
      (leading_slots (os.sys_ioctl (os.sys_open dev O_RDONLY).fd SG_IO_REQUEST
          sg_io_hdr_request cdb (List.replicate BUF_SZ 0)).buf = 43 →
        BUF_SZ + 6 ≤ (os.sys_ioctl (os.sys_open dev O_RDONLY).fd SG_IO_REQUEST
          sg_io_hdr_request cdb (List.replicate BUF_SZ 0)).buf.length)) :
    ((main os argv).status = some 0 ↔
      ∃ prog dev rest, argv = prog :: dev :: rest ∧
        0 ≤ (os.sys_open dev O_RDONLY).fd ∧
        0 ≤ (os.sys_ioctl (os.sys_open dev O_RDONLY).fd SG_IO_REQUEST
          sg_io_hdr_request cdb (List.replicate BUF_SZ 0)).ret) ∧
    (argv.length < 2 →
      (main os argv).status = some EXIT_FAILURE ∧
      (∀ e, e ∈ (main os argv).trace → e.is_open_call = false) ∧
      stdout_of (main os argv).trace = []) ∧
    (∀ prog dev rest, argv = prog :: dev :: rest →
      (os.sys_open dev O_RDONLY).fd < 0 →
      (main os argv).status = some EXIT_FAILURE ∧ stdout_of (main os argv).trace = []) ∧
    (∀ prog dev rest, argv = prog :: dev :: rest →
      0 ≤ (os.sys_open dev O_RDONLY).fd →
      (os.sys_ioctl (os.sys_open dev O_RDONLY).fd SG_IO_REQUEST
        sg_io_hdr_request cdb (List.replicate BUF_SZ 0)).ret < 0 →
      (main os argv).status = some EXIT_FAILURE ∧ stdout_of (main os argv).trace = []) ∧
    EXIT_FAILURE ≠ 0 := by
  have hmissing : argv.length < 2 →
      (main os argv).status = some EXIT_FAILURE ∧
      (∀ e, e ∈ (main os argv).trace → e.is_open_call = false) ∧
      stdout_of (main os argv).trace = [] := by
    intro h
    rw [main_of_missing_argument os argv h]
    refine ⟨rfl, ?_, rfl⟩
    intro e he
    rw [List.mem_singleton] at he
    subst he
    rfl
  have hopenfail : ∀ prog dev rest, argv = prog :: dev :: rest →
      (os.sys_open dev O_RDONLY).fd < 0 →
      (main os argv).status = some EXIT_FAILURE ∧ stdout_of (main os argv).trace = [] := by
    intro prog dev rest hargv hfail
    subst hargv
    refine ⟨?_, ?_⟩
    · simp only [main, if_pos hfail]
    · simp only [main, if_pos hfail]
      rfl
  have hreqfail : ∀ prog dev rest, argv = prog :: dev :: rest →
      0 ≤ (os.sys_open dev O_RDONLY).fd →
      (os.sys_ioctl (os.sys_open dev O_RDONLY).fd SG_IO_REQUEST
        sg_io_hdr_request cdb (List.replicate BUF_SZ 0)).ret < 0 →
      (main os argv).status = some EXIT_FAILURE ∧ stdout_of (main os argv).trace = [] := by
    intro prog dev rest hargv hopen hfail
    subst hargv
    rw [main_of_request_failure os prog dev rest hopen hfail]
    exact ⟨rfl, rfl⟩
  have hne : some EXIT_FAILURE ≠ some 0 := by decide
  refine ⟨⟨?_, ?_⟩, hmissing, hopenfail, hreqfail, by decide⟩
  · intro hstatus
    match argv, hstatus, hmissing, hopenfail, hreqfail with
    | [], hstatus, hmissing, _, _ =>
      exact absurd ((hmissing (by decide)).1.symm.trans hstatus) hne
    | [_], hstatus, hmissing, _, _ =>
      exact absurd ((hmissing (by simp)).1.symm.trans hstatus) hne
    | prog :: dev :: rest, hstatus, _, hopenfail, hreqfail =>
      refine ⟨prog, dev, rest, rfl, ?_, ?_⟩
      · by_contra hfd
        exact absurd ((hopenfail prog dev rest rfl (not_le.mp hfd)).1.symm.trans hstatus) hne
      · by_contra hret
        by_cases hfd : (os.sys_open dev O_RDONLY).fd < 0
        · exact absurd ((hopenfail prog dev rest rfl hfd).1.symm.trans hstatus) hne
        · exact absurd
            ((hreqfail prog dev rest rfl (not_lt.mp hfd) (not_le.mp hret)).1.symm.trans hstatus)
            hne
  · rintro ⟨prog, dev, rest, rfl, hopen, hreq⟩
    have hstop := (walk_count _ (hmem dev hreq).1 (hmem dev hreq).2).2
    rw [main_of_success os prog dev rest hopen hreq (fun off hoff => by
      rw [hoff] at hstop
      rcases hstop with h | h <;> exact Stop.noConfusion h)]
    rfl

theorem digit_val_digitChar : ∀ k, k < 16 → digit_val (Nat.digitChar k) = k := by
  decide

theorem digitChar_ne_space : ∀ k, k < 16 → Nat.digitChar k ≠ ' ' := by
  decide

/-- Reading the digits that `Nat.toDigitsCore` puts in front of `ds` gives
the number back. -/
theorem foldl_toDigitsCore (b : Nat) (hb2 : 2 ≤ b) (hb16 : b ≤ 16) :
    ∀ (f n : Nat) (ds : List Char), n < f →
      (Nat.toDigitsCore b f n ds).foldl (fun acc c => acc * b + digit_val c) 0 =
        ds.foldl (fun acc c => acc * b + digit_val c) n := by
  intro f
  induction f with
  | zero => intro n ds h; exact absurd h (Nat.not_lt_zero n)
  | succ f ih =>
    intro n ds hn
    have hmod : n % b < 16 := lt_of_lt_of_le (Nat.mod_lt n (by omega)) hb16
    unfold Nat.toDigitsCore
    by_cases h0 : n / b = 0
    · have hlt : n < b := by
        rcases Nat.div_eq_zero_iff (by omega : 0 < b) |>.mp h0 with h
        exact h
      have hdv : digit_val (Nat.digitChar n) = n := digit_val_digitChar n (by omega)
      simp only [h0, if_true, List.foldl_cons, Nat.mod_eq_of_lt hlt, hdv,
        Nat.zero_mul, Nat.zero_add]
    · have hpos : 0 < n := by
        rcases Nat.eq_zero_or_pos n with h | h
        · rw [h, Nat.zero_div] at h0; exact absurd rfl h0
        · exact h
      have hdiv : n / b < f := by
        have : n / b < n := Nat.div_lt_self hpos (by omega)
        omega
      simp only [h0, if_false]
      rw [ih (n / b) _ hdiv, List.foldl_cons, digit_val_digitChar _ hmod,
        Nat.div_add_mod']

/-- The digits that `Nat.toDigitsCore` produces are not spaces. -/
theorem toDigitsCore_ne_space (b : Nat) (hb2 : 2 ≤ b) (hb16 : b ≤ 16) :
    ∀ (f n : Nat) (ds : List Char), (∀ c, c ∈ ds → c ≠ ' ') →
      ∀ c, c ∈ Nat.toDigitsCore b f n ds → c ≠ ' ' := by
  intro f
  induction f with
  | zero => intro n ds hds c hc; exact hds c (by simpa [Nat.toDigitsCore] using hc)
  | succ f ih =>
    intro n ds hds c hc
    have hmod : n % b < 16 := lt_of_lt_of_le (Nat.mod_lt n (by omega)) hb16
    have hds' : ∀ c, c ∈ Nat.digitChar (n % b) :: ds → c ≠ ' ' := by
      intro c hc
      rcases List.mem_cons.mp hc with rfl | hc
      · exact digitChar_ne_space _ hmod
      · exact hds c hc
    unfold Nat.toDigitsCore at hc
    by_cases h0 : n / b = 0
    · simp only [h0, if_true] at hc
      exact hds' c hc
    · simp only [h0, if_false] at hc
      exact ih (n / b) _ hds' c hc

/-- Skipping the padding of a right-justified field whose text holds no
space gives the text. -/
theorem dropWhile_pad_left (w : Nat) (ds : List Char) (hds : ∀ c, c ∈ ds → c ≠ ' ') :
    (pad_left w ds).dropWhile (fun c => c == ' ') = ds := by
  unfold pad_left
  generalize w - ds.length = k
  induction k with
  | zero =>
    cases ds with
    | nil => rfl
    | cons c t =>
      have hc : c ≠ ' ' := hds c (List.mem_cons_self c t)
      simp [List.dropWhile_cons, hc]
  | succ k ih =>
    rw [List.replicate_succ, List.cons_append, List.dropWhile_cons]
    simpa using ih

/-- Reading a `%x` or `%u` field back gives the number printed. -/
theorem parse_num_pad_left (b w n : Nat) (hb2 : 2 ≤ b) (hb16 : b ≤ 16) :
    parse_num b (pad_left w (Nat.toDigits b n)) = n := by
  unfold parse_num Nat.toDigits
  rw [dropWhile_pad_left w _
    (toDigitsCore_ne_space b hb2 hb16 (n + 1) n [] (fun c hc => absurd hc (List.not_mem_nil c))),
    foldl_toDigitsCore b hb2 hb16 (n + 1) n [] (Nat.lt_succ_self n)]
  rfl

/-- Reading the number columns of a row back gives the six members that the
row shows. -/
theorem parse_row_print_row (rv : raw_value_t) (h : rv.in_range) :
    parse_row (print_row rv) =
      (rv.attr_id, rv.attr_flags, rv.current_value, rv.worst_value, rv.data,
        rv.threshold) := by
  obtain ⟨c1, _, c3, _, c5, c6, c7, c8, _, _⟩ := print_row_columns rv h
  unfold parse_row
  rw [c1, c3, c5, c6, c7, c8]
  simp only [fmt_x, fmt_u, parse_num_pad_left 16 _ _ (by decide) (by decide),
    parse_num_pad_left 10 _ _ (by decide) (by decide)]

/-- C19: the row is a lossless view of the six displayed members and of
nothing else. For every two records with members in the range of their C
types, the rows are equal if and only if the records agree on attribute ID,
flags, current value, worst value, raw data and threshold; the auxiliary
member `attr_data` never affects the row; and reading the hexadecimal ID,
flags, current, worst and threshold columns and the decimal data column of
a row back gives the values of the record. -/
theorem print_row_lossless (r1 r2 : raw_value_t) (h1 : r1.in_range) (h2 : r2.in_range) :
    (print_row r1 = print_row r2 ↔
      r1.attr_id = r2.attr_id ∧ r1.attr_flags = r2.attr_flags ∧
      r1.current_value = r2.current_value ∧ r1.worst_value = r2.worst_value ∧
      r1.data = r2.data ∧ r1.threshold = r2.threshold) ∧
    (∀ x, print_row { r1 with attr_data := x } = print_row r1) ∧
    parse_row (print_row r1) =
      (r1.attr_id, r1.attr_flags, r1.current_value, r1.worst_value, r1.data,
        r1.threshold) := by
  refine ⟨⟨?_, ?_⟩, fun x => print_row_attr_data r1 x, parse_row_print_row r1 h1⟩
  · intro heq
    have hp := parse_row_print_row r1 h1
    rw [heq, parse_row_print_row r2 h2] at hp
    simp only [Prod.mk.injEq] at hp
    obtain ⟨e1, e2, e3, e4, e5, e6⟩ := hp
    exact ⟨e1.symm, e2.symm, e3.symm, e4.symm, e5.symm, e6.symm⟩
  · rintro ⟨e1, e2, e3, e4, e5, e6⟩
    simp only [print_row, e1, e2, e3, e4, e5, e6]

/-- C19 at two records that differ in the auxiliary data only: same row, and
the row reads back as the six displayed members. -/
theorem print_row_lossless_witness :
    print_row ⟨0xc2, 0x22, 60, 40, 35, 0, 0⟩ = print_row ⟨0xc2, 0x22, 60, 40, 35, 0x1234, 0⟩ ∧
    parse_row (print_row ⟨0xc2, 0x22, 60, 40, 35, 0, 0⟩) = (0xc2, 0x22, 60, 40, 35, 0) :=
  have h := print_row_lossless ⟨0xc2, 0x22, 60, 40, 35, 0, 0⟩
    ⟨0xc2, 0x22, 60, 40, 35, 0x1234, 0⟩
    (by unfold raw_value_t.in_range; decide) (by unfold raw_value_t.in_range; decide)
  ⟨h.1.mpr ⟨rfl, rfl, rfl, rfl, rfl, rfl⟩, h.2.2⟩

end TinySmart
